import Mathlib

/-!
Verification development for the nix-compiler repository: a shallow
embedding of the lazy evaluation core (src/expr.rs, src/value/lazy.rs,
src/value.rs, src/value/var.rs, src/scope.rs, src/builtins/impl.rs,
src/result/backtrace.rs) and of the derivation store-path computation
(src/derivation/mod.rs, src/derivation/hash.rs), together with theorems
checking the natural-language specification against it.

Modelling conventions:
  - Rc<RefCell<LazyNixValue>> (NixVar) and Rc<RefCell<NixValue>>
    (NixValueWrapped) are heap cells; a cell is an index into a heap of
    optional cells, and pointer equality is index equality.
  - The evaluator is a fuel-indexed mutual recursion; running out of
    fuel is the distinct outcome `spin`, never confused with an error.
  - Rust `panic!` / `todo!` (the diverging macro) is the outcome
    `panic`; `std::process::exit(n)` is the outcome `exit n`;
    `Err(NixError)` is the outcome `err`.
  - rnix AST nodes are modelled by the `Expr` type below, restricted to
    the syntactic forms the checked claims exercise (no string or path
    interpolation, attribute paths of length one with static names, no
    inherit entries, no pattern lambda parameters, no URI literals).
    `NixSpan` of a node is modelled as the node itself.
  - f64 payloads are modelled as rationals: every literal the claims
    use is exactly representable, and no claim depends on IEEE
    rounding, NaN or signed zero, which are outside the model.
  - `LazyNixValue::Eval` (used only by inherit entries and builtin
    callback thunks, which no claim exercises) is not modelled.
-/

namespace NixCompiler

/-- Binary operators of ast::BinOp modelled here (visit_binop in
src/expr.rs); Concat, Sub, Mul, Div, Less, LessOrEq, More, MoreOrEq and
NotEqual are not exercised by any claim and are omitted. -/
inductive BinOp where
  | add
  | update
  | and
  | or
  | implication
  | equal

/-- The modelled fragment of rnix ast::Expr. Attribute-set and let
entries are static single-name attrpath/value pairs. -/
inductive Expr where
  | litInt (n : Int)
  | litFloat (q : Rat)
  | str (s : String)
  | ident (name : String)
  | attrs (isRec : Bool) (entries : List (String × Expr))
  | letIn (entries : List (String × Expr)) (body : Expr)
  | select (e : Expr) (attr : String) (dflt : Option Expr)
  | binop (op : BinOp) (lhs rhs : Expr)
  | withE (ns : Expr) (body : Expr)
  | apply (f : Expr) (arg : Expr)
  | lambda (param : String) (body : Expr)

/-- NixSpan (src/result.rs) identifies the source region of a node; the
model identifies a span with the node itself. -/
abbrev Span := Expr

/-- NixBacktraceKind (src/result/backtrace.rs), restricted to the kinds
produced by the modelled forms, plus File (src/scope/file.rs). -/
inductive BacktraceKind where
  | none
  | apply
  | ident
  | letIn
  | literal
  | lambda
  | binOp
  | select
  | strK
  | withK
  | file

/-- NixBacktrace (src/result/backtrace.rs): span, optional parent,
kind. -/
inductive Backtrace where
  | mk (span : Span) (parent : Option Backtrace) (kind : BacktraceKind)

def Backtrace.span : Backtrace → Span
  | .mk s _ _ => s

def Backtrace.parent : Backtrace → Option Backtrace
  | .mk _ p _ => p

/-- NixBacktrace::change_span: replace the span, keep parent and
kind. -/
def Backtrace.changeSpan : Backtrace → Span → Backtrace
  | .mk _ p k, s => .mk s p k

/-- NixBacktrace::child. -/
def Backtrace.child (bt : Backtrace) (s : Span) (k : BacktraceKind) : Backtrace :=
  .mk s (some bt) k

/-- NixBacktrace::visit (src/result/backtrace.rs): push a child frame
for most forms; AttrSet (and Paren/Root/List) reuse the parent
backtrace. -/
def Backtrace.visit (bt : Backtrace) (e : Expr) : Backtrace :=
  match e with
  | .litInt _ => bt.child e .literal
  | .litFloat _ => bt.child e .literal
  | .str _ => bt.child e .strK
  | .ident _ => bt.child e .ident
  | .attrs _ _ => bt
  | .letIn _ _ => bt.child e .letIn
  | .select _ _ _ => bt.child e .select
  | .binop _ _ _ => bt.child e .binOp
  | .withE _ _ => bt.child e .withK
  | .apply _ _ => bt.child e .apply
  | .lambda _ _ => bt.child e .lambda

/-- NixLabelKind (src/result.rs). -/
inductive LabelKind where
  | error
  | help
  | todo

/-- NixLabelMessage (src/result.rs), the variants the model emits. -/
inductive LabelMessage where
  | attributeMissing
  | custom (s : String)
  | empty
  | variableNotFound

/-- NixLabel (src/result.rs). -/
structure Label where
  span : Span
  label : LabelMessage
  kind : LabelKind

/-- NixError (src/result.rs). -/
structure NixError where
  message : String
  labels : List Label
  backtrace : Option Backtrace

/-- NixError::todo (src/result.rs line 315): one Todo-kind label whose
message is the error message. -/
def NixError.todo (span : Span) (message : String) (backtrace : Option Backtrace) : NixError :=
  { message := message
    labels := [⟨span, .custom message, .todo⟩]
    backtrace := backtrace }

/-- NixError::from_message (src/result.rs line 253). -/
def NixError.fromMessage (label : Label) (message : String) : NixError :=
  { message := message, labels := [label], backtrace := none }

/-- NixBacktrace::to_error for an Empty label (src/result/backtrace.rs
line 106); the Empty label message is replaced by the backtrace kind
rendering, which the claims do not inspect, so the label message is
kept as produced by or_else over Empty. -/
def Backtrace.toError (bt : Backtrace) (kind : LabelKind) (message : String) : NixError :=
  match bt with
  | .mk span parent _ =>
    { message := message
      labels := [⟨span, .custom "in ", kind⟩]
      backtrace := some (.mk span parent .none) }

/-- The builtins modelled from src/builtins/impl.rs: abort, throw and
tryEval (the three the claims exercise). -/
inductive Builtin where
  | abort
  | throw
  | tryEval

/-- Scope (src/scope.rs): a variables cell (index into the value heap,
always an AttrSet) and an optional parent. The FileScope reference and
stored backtrace play no role in the modelled behaviour. -/
inductive Scope where
  | mk (varsCell : Nat) (parent : Option Scope)

def Scope.variablesId : Scope → Nat
  | .mk v _ => v

def Scope.parent : Scope → Option Scope
  | .mk _ p => p

/-- NixLambdaParam::Ident lambdas and builtin callables (NixLambda in
src/value.rs); pattern parameters are not modelled. -/
inductive NixLambda where
  | apply (scope : Scope) (param : String) (body : Expr)
  | builtin (b : Builtin)

/-- NixValue (src/value.rs with the dynamic attrset realization of
src/value/attrset.rs): attrsets are key-sorted association lists from
attribute name to var-cell index, mirroring BTreeMap<String, NixVar>;
lists hold var-cell indices. The derivation attrset realization is
modelled separately in the store-path section. -/
inductive NixValue where
  | attrset (set : List (String × Nat))
  | bool (b : Bool)
  | float (q : Rat)
  | int (n : Int)
  | lambda (l : NixLambda)
  | list (items : List Nat)
  | null
  | path (p : String)
  | str (s : String)

/-- LazyNixValue (src/value/lazy.rs): the thunk cell states. The
Concrete payload and the UpdateResolve lhs are value-cell indices. -/
inductive LazyNixValue where
  | concrete (val : Nat)
  | pending (bt : Backtrace) (scope : Scope) (body : Expr)
  | updateResolve (lhs : Nat) (rhs : Expr) (bt : Backtrace) (scope : Scope)
  | resolving (defBt : Backtrace) (useBt : Backtrace)

/-- The heap: var cells (Rc<RefCell<LazyNixValue>>) and value cells
(Rc<RefCell<NixValue>>), with bump allocation. -/
structure Heap where
  varCount : Nat
  vars : Nat → Option LazyNixValue
  valCount : Nat
  vals : Nat → Option NixValue

def Heap.empty : Heap :=
  { varCount := 0, vars := fun _ => none, valCount := 0, vals := fun _ => none }

def Heap.allocVar (h : Heap) (x : LazyNixValue) : Nat × Heap :=
  (h.varCount,
   { h with varCount := h.varCount + 1
            vars := fun j => if j = h.varCount then some x else h.vars j })

def Heap.writeVar (h : Heap) (i : Nat) (x : LazyNixValue) : Heap :=
  { h with vars := fun j => if j = i then some x else h.vars j }

def Heap.allocVal (h : Heap) (x : NixValue) : Nat × Heap :=
  (h.valCount,
   { h with valCount := h.valCount + 1
            vals := fun j => if j = h.valCount then some x else h.vals j })

def Heap.writeVal (h : Heap) (i : Nat) (x : NixValue) : Heap :=
  { h with vals := fun j => if j = i then some x else h.vals j }

/-- Computation outcomes: Ok, Err(NixError), std::process::exit, a
diverging panic!/todo! macro, or fuel exhaustion (an artifact of the
shallow embedding, distinct from every behaviour of the program). -/
inductive Outcome (α : Type) where
  | ok (a : α)
  | err (e : NixError)
  | exit (code : Nat)
  | panic (msg : String)
  | spin

/-- Sorted-insert into the key-sorted association list modelling
BTreeMap::insert. -/
def insertSorted (k : String) (v : Nat) : List (String × Nat) → List (String × Nat)
  | [] => [(k, v)]
  | (k', v') :: rest =>
    if k < k' then (k, v) :: (k', v') :: rest
    else if k = k' then (k, v) :: rest
    else (k', v') :: insertSorted k v rest

/-- BTreeMap::get on the association list. -/
def lookupA (k : String) : List (String × Nat) → Option Nat
  | [] => none
  | (k', v) :: rest => if k = k' then some v else lookupA k rest

/-- BTreeMap::extend: insert every pair of the second map into the
first (later inserts override). -/
def extendA (base : List (String × Nat)) (more : List (String × Nat)) : List (String × Nat) :=
  more.foldl (fun acc kv => insertSorted kv.1 kv.2 acc) base

/-- NixValue::as_bool. -/
def NixValue.asBool : NixValue → Option Bool
  | .bool b => some b
  | _ => none

/-- NixValue::as_int. -/
def NixValue.asInt : NixValue → Option Int
  | .int n => some n
  | _ => none

/-- NixValue::as_lambda. -/
def NixValue.asLambda : NixValue → Option NixLambda
  | .lambda l => some l
  | _ => none

/-- NixValue::as_attr_set. -/
def NixValue.asAttrSet : NixValue → Option (List (String × Nat))
  | .attrset s => some s
  | _ => none

/-- NixValue::is_attr_set. -/
def NixValue.isAttrSet (v : NixValue) : Bool :=
  (v.asAttrSet).isSome

/-- NixValue::as_string (src/value.rs line 372), which is also the
permissive cast_to_string of the spec: Null and false give the empty
string, true gives "1", numbers their decimal rendering, paths their
text, strings themselves; List/Lambda give none. The AttrSet arm of the
source is a todo!() panic that no claim reaches; the model returns none
there. Float rendering uses the rational payload; no claim inspects
it. -/
def NixValue.asString : NixValue → Option String
  | .attrset _ => none
  | .bool false => some ""
  | .bool true => some "1"
  | .float q => some (toString q)
  | .int n => some (toString n)
  | .null => some ""
  | .path p => some p
  | .str s => some s
  | _ => none

/-- Scope::get_variable (src/scope.rs line 97): look up in the own
variables cell, else in the parent chain. The variables cell is an
AttrSet by construction (the source unwraps it). -/
def Scope.getVariable (h : Heap) : Scope → String → Option Nat
  | .mk vars parent, name =>
    match h.vals vars with
    | some (.attrset set) =>
      match lookupA name set with
      | some v => some v
      | none =>
        match parent with
        | some p => p.getVariable h name
        | none => none
    | _ => none

/-- Scope::new_child (src/scope.rs line 71): fresh empty variables
cell, parent is the receiver. -/
def Scope.newChild (scope : Scope) (h : Heap) : Scope × Heap :=
  let (vid, h) := h.allocVal (.attrset [])
  (.mk vid (some scope), h)

/-- Scope::new_child_from (src/scope.rs line 80): given variables cell,
parent is the receiver. -/
def Scope.newChildFrom (scope : Scope) (varsId : Nat) : Scope :=
  .mk varsId (some scope)

/-- Scope::set_variable (src/scope.rs line 89): insert into the own
variables cell. -/
def Scope.setVariable (scope : Scope) (name : String) (var : Nat) (h : Heap) : Heap :=
  match h.vals scope.variablesId with
  | some (.attrset set) => h.writeVal scope.variablesId (.attrset (insertSorted name var set))
  | _ => h

/-- Scope::insert_to_attrset (src/expr.rs line 15) for a single static
attribute name: a non-storeable (empty) name is silently discarded;
otherwise a Pending thunk over the value expression, closing over a
fresh child of the given scope, is inserted into the target attrset
cell. The per-entry backtrace is new_backtrace(bt, value-node). -/
def insertToAttrset (scope : Scope) (bt : Backtrace) (out : Nat)
    (attr : String) (attrValue : Expr) (h : Heap) : Heap :=
  if attr = "" then h
  else
    let (child, h) := scope.newChild h
    let pendingBt : Backtrace := .mk attrValue (some bt) .none
    let (v, h) := h.allocVar (.pending pendingBt child attrValue)
    match h.vals out with
    | some (.attrset set) => h.writeVal out (.attrset (insertSorted attr v set))
    | _ => h

/-- The entry loop of visit_attrset (src/expr.rs line 266/274): every
entry is inserted with the same backtrace. -/
def insertEntriesAttrs (scope : Scope) (bt : Backtrace) (out : Nat) :
    List (String × Expr) → Heap → Heap
  | [], h => h
  | (attr, value) :: rest, h =>
    insertEntriesAttrs scope bt out rest (insertToAttrset scope bt out attr value h)

/-- The entry loop of visit_letin (src/expr.rs line 589): every entry
is inserted under new_backtrace(bt, entry); the entry span is modelled
by the entry value node. -/
def insertEntriesLet (scope : Scope) (bt : Backtrace) (out : Nat) :
    List (String × Expr) → Heap → Heap
  | [], h => h
  | (attr, value) :: rest, h =>
    insertEntriesLet scope bt out rest
      (insertToAttrset scope (.mk value (some bt) .none) out attr value h)

/-- Propagate a non-Ok outcome at a different result type. -/
def Outcome.castFail {α β : Type} : Outcome α → Outcome β
  | .ok _ => .panic "castFail on ok"
  | .err e => .err e
  | .exit c => .exit c
  | .panic m => .panic m
  | .spin => .spin

mutual

/-- Scope::visit_expr (src/expr.rs line 172) and the per-form visit
functions it dispatches to, for the modelled forms. The backtrace is
first extended by NixBacktrace::visit. -/
def visitExpr (fuel : Nat) (scope : Scope) (backtrace : Backtrace) (e : Expr) (h : Heap) :
    Outcome Nat × Heap :=
  match fuel with
  | 0 => (.spin, h)
  | fuel + 1 =>
    let bt := backtrace.visit e
    match e with
    | .litInt n =>
      let (vid, h) := h.allocVal (.int n)
      let (v, h) := h.allocVar (.concrete vid)
      (.ok v, h)
    | .litFloat q =>
      let (vid, h) := h.allocVal (.float q)
      let (v, h) := h.allocVar (.concrete vid)
      (.ok v, h)
    | .str s =>
      let (vid, h) := h.allocVal (.str s)
      let (v, h) := h.allocVar (.concrete vid)
      (.ok v, h)
    | .ident name =>
      match scope.getVariable h name with
      | some v => (.ok v, h)
      | none =>
        (.err (NixError.fromMessage ⟨e, .variableNotFound, .error⟩
          ("Variable '\x1b[1;95m" ++ name ++ "\x1b[0m' not found")), h)
    | .attrs isRec entries =>
      if isRec then
        let (child, h) := scope.newChild h
        let h := insertEntriesAttrs child bt child.variablesId entries h
        let (v, h) := h.allocVar (.concrete child.variablesId)
        (.ok v, h)
      else
        let (out, h) := h.allocVal (.attrset [])
        let h := insertEntriesAttrs scope bt out entries h
        let (v, h) := h.allocVar (.concrete out)
        (.ok v, h)
    | .letIn entries body =>
      let h := insertEntriesLet scope bt scope.variablesId entries h
      let (bodyScope, h) := scope.newChild h
      let (v, h) := h.allocVar (.pending (bt.child body .none) bodyScope body)
      (.ok v, h)
    | .select e1 attr dflt =>
      match visitExpr fuel scope bt e1 h with
      | (.ok var, h) =>
        match selectAttr fuel var attr e bt h with
        | (.ok (.ok v), h) => (.ok v, h)
        | (.ok (.error err), h) =>
          match dflt with
          | some d => visitExpr fuel scope bt d h
          | none => (.err err, h)
        | (r, h) => (r.castFail, h)
      | r => r
    | .binop op l r => visitBinOp fuel scope bt op l r e h
    | .withE ns body =>
      match visitExpr fuel scope bt ns h with
      | (.ok nsVar, h) =>
        match NixVar.resolve fuel nsVar bt h with
        | (.ok nsVal, h) =>
          match h.vals nsVal with
          | some v =>
            if v.isAttrSet then
              visitExpr fuel (scope.newChildFrom nsVal) bt body h
            else (.panic "Error handling", h)
          | none => (.panic "dangling value cell", h)
        | (r, h) => (r.castFail, h)
      | r => r
    | .apply f arg =>
      let lambdaBt := bt.changeSpan f
      match visitExpr fuel scope lambdaBt f h with
      | (.ok fVar, h) =>
        match NixVar.resolve fuel fVar lambdaBt h with
        | (.ok fVal, h) =>
          match (h.vals fVal).bind NixValue.asLambda with
          | some lam =>
            let argBt := bt.changeSpan arg
            match visitExpr fuel scope argBt arg h with
            | (.ok argVar, h) => NixLambda.call fuel lam argBt argVar h
            | r => r
          | none => (.panic "Error handling: Lambda cast", h)
        | (r, h) => (r.castFail, h)
      | r => r
    | .lambda p body =>
      let (vid, h) := h.allocVal (.lambda (.apply scope p body))
      let (v, h) := h.allocVar (.concrete vid)
      (.ok v, h)
termination_by structural fuel

/-- Scope::visit_binop (src/expr.rs line 283) for the modelled
operators; `node` is the whole BinOp node, used for spans. -/
def visitBinOp (fuel : Nat) (scope : Scope) (bt : Backtrace) (op : BinOp)
    (l r : Expr) (node : Expr) (h : Heap) : Outcome Nat × Heap :=
  match fuel with
  | 0 => (.spin, h)
  | fuel + 1 =>
    match visitExpr fuel scope bt l h with
    | (.ok lhsVar, h) =>
      match NixVar.resolve fuel lhsVar bt h with
      | (.ok lhs, h) =>
        match op with
        | .update =>
          match (h.vals lhs).bind NixValue.asAttrSet with
          | some _ =>
            let (v, h) := h.allocVar (.updateResolve lhs r bt scope)
            (.ok v, h)
          | none => (.panic "Error handling", h)
        | .add =>
          match h.vals lhs with
          | some (.str s) =>
            match visitExpr fuel scope bt r h with
            | (.ok rhsVar, h) =>
              match NixVar.resolve fuel rhsVar bt h with
              | (.ok rhsVal, h) =>
                match (h.vals rhsVal).bind NixValue.asString with
                | some rs =>
                  let (vid, h) := h.allocVal (.str (s ++ rs))
                  let (v, h) := h.allocVar (.concrete vid)
                  (.ok v, h)
                | none => (.panic "Error handling", h)
              | r => r
            | r => r
          | some (.int n) =>
            match visitExpr fuel scope bt r h with
            | (.ok rhsVar, h) =>
              match NixVar.resolve fuel rhsVar bt h with
              | (.ok rhsVal, h) =>
                match (h.vals rhsVal).bind NixValue.asInt with
                | some m =>
                  let (vid, h) := h.allocVal (.int (n + m))
                  let (v, h) := h.allocVar (.concrete vid)
                  (.ok v, h)
                | none => (.panic "Error handling: Int cast", h)
              | r => r
            | r => r
          | some _ => (.err (NixError.todo node "Cannot add" none), h)
          | none => (.panic "dangling value cell", h)
        | .and =>
          match (h.vals lhs).bind NixValue.asBool with
          | some true => visitExpr fuel scope bt r h
          | some false =>
            let (vid, h) := h.allocVal (.bool false)
            let (v, h) := h.allocVar (.concrete vid)
            (.ok v, h)
          | none => (.panic "Error handling", h)
        | .or =>
          match (h.vals lhs).bind NixValue.asBool with
          | some false => visitExpr fuel scope bt r h
          | some true =>
            let (vid, h) := h.allocVal (.bool true)
            let (v, h) := h.allocVar (.concrete vid)
            (.ok v, h)
          | none => (.panic "Error handling", h)
        | .implication =>
          match (h.vals lhs).bind NixValue.asBool with
          | some true => visitExpr fuel scope bt r h
          | some false =>
            let (vid, h) := h.allocVal (.bool true)
            let (v, h) := h.allocVar (.concrete vid)
            (.ok v, h)
          | none => (.panic "Error handling", h)
        | .equal =>
          match visitExpr fuel scope bt r h with
          | (.ok rhsVar, h) =>
            match NixVar.resolve fuel rhsVar bt h with
            | (.ok rhsVal, h) =>
              match NixValue.tryEq fuel rhsVal lhs bt h with
              | (.ok b, h) =>
                let (vid, h) := h.allocVal (.bool b)
                let (v, h) := h.allocVar (.concrete vid)
                (.ok v, h)
              | (r, h) => (r.castFail, h)
            | r => r
          | r => r
      | r => r
    | r => r
termination_by structural fuel

/-- LazyNixValue::resolve (src/value/lazy.rs line 141): the thunk state
machine. A Concrete cell returns its value; a Resolving cell raises the
three-label infinite-recursion diagnostic; otherwise the cell moves to
Resolving and the old state is evaluated, evaluation happening under
the defining backtrace. -/
def LazyNixValue.resolve (fuel : Nat) (this : Nat) (backtrace : Backtrace) (h : Heap) :
    Outcome Nat × Heap :=
  match fuel with
  | 0 => (.spin, h)
  | fuel + 1 =>
    match h.vars this with
    | none => (.panic "dangling var cell", h)
    | some (.concrete value) => (.ok value, h)
    | some (.resolving defBt useBt) =>
      (.err
        { message := "Infinite recursion detected. Tried to get a value that is resolving"
          labels :=
            [⟨defBt.span, .empty, .error⟩,
             ⟨backtrace.span, .custom "Called from here", .help⟩,
             ⟨useBt.span, .custom "Already used here", .help⟩]
          backtrace := defBt.parent }, h)
    | some (.pending defBt scope expr) =>
      match visitExpr fuel scope defBt expr (h.writeVar this (.resolving defBt backtrace)) with
      | (.ok value, h) =>
        match h.vars value with
        | some (.updateResolve ulhs urhs ubt uscope) =>
          LazyNixValue.resolve fuel this defBt
            (h.writeVar this (.updateResolve ulhs urhs ubt uscope))
        | _ =>
          match NixVar.resolve fuel value defBt h with
          | (.ok v, h) => (.ok v, h.writeVar this (.concrete v))
          | r => r
      | r => r
    | some (.updateResolve lhs rhsExpr defBt scope) =>
      match visitExpr fuel scope defBt rhsExpr
          ((h.writeVar this (.resolving defBt backtrace)).writeVar this (.concrete lhs)) with
      | (.ok rhsVar, h) =>
        match h.vars rhsVar with
        | some (.updateResolve resolvedRhs rhs2 bt2 scope2) =>
          match (h.vals resolvedRhs).bind NixValue.asAttrSet with
          | some rhsSet =>
            match (h.vals lhs).bind NixValue.asAttrSet with
            | some lhsSet =>
              match h.allocVal (.attrset (extendA (extendA [] lhsSet) rhsSet)) with
              | (vid, h) =>
                (.ok vid, h.writeVar this (.updateResolve vid rhs2 bt2 scope2))
            | none => (.panic "unwrap on non-attrset lhs", h)
          | none => (.panic "Error handling", h)
        | _ =>
          match NixVar.resolve fuel rhsVar defBt h with
          | (.ok rhsVal, h) =>
            match (h.vals rhsVal).bind NixValue.asAttrSet with
            | some rhsSet =>
              match (h.vals lhs).bind NixValue.asAttrSet with
              | some lhsSet =>
                match h.allocVal (.attrset (extendA (extendA [] lhsSet) rhsSet)) with
                | (vid, h) =>
                  (.ok vid, h.writeVar this (.concrete vid))
              | none => (.panic "unwrap on non-attrset lhs", h)
            | none => (.panic "Error handling", h)
          | r => r
      | r => r
termination_by structural fuel

/-- NixVar::resolve (src/value/var.rs line 42): Concrete fast path,
then LazyNixValue::resolve, repeated while the cell remains
UpdateResolve. -/
def NixVar.resolve (fuel : Nat) (v : Nat) (backtrace : Backtrace) (h : Heap) :
    Outcome Nat × Heap :=
  match fuel with
  | 0 => (.spin, h)
  | fuel + 1 =>
    match h.vars v with
    | some (.concrete value) => (.ok value, h)
    | _ =>
      match LazyNixValue.resolve fuel v backtrace h with
      | (.ok out, h) => NixVar.resolveLoop fuel v backtrace out h
      | r => r
termination_by structural fuel

/-- The while-loop of NixVar::resolve (src/value/var.rs line 49). -/
def NixVar.resolveLoop (fuel : Nat) (v : Nat) (backtrace : Backtrace) (out : Nat) (h : Heap) :
    Outcome Nat × Heap :=
  match fuel with
  | 0 => (.spin, h)
  | fuel + 1 =>
    match h.vars v with
    | some (.updateResolve _ _ _ _) =>
      match LazyNixValue.resolve fuel v backtrace h with
      | (.ok out2, h) => NixVar.resolveLoop fuel v backtrace out2 h
      | r => r
    | _ => (.ok out, h)
termination_by structural fuel

/-- NixLambda::call (src/value.rs line 415) for Ident parameters and
builtins. -/
def NixLambda.call (fuel : Nat) (lam : NixLambda) (backtrace : Backtrace) (value : Nat)
    (h : Heap) : Outcome Nat × Heap :=
  match fuel with
  | 0 => (.spin, h)
  | fuel + 1 =>
    match lam with
    | .apply lamScope param body =>
      let (scope, h) := lamScope.newChild h
      let h := scope.setVariable param value h
      visitExpr fuel scope backtrace body h
    | .builtin b =>
      match Builtin.run fuel b backtrace value h with
      | (.ok vid, h) =>
        let (v, h) := h.allocVar (.concrete vid)
        (.ok v, h)
      | (r, h) => (r.castFail, h)
termination_by structural fuel

/-- The modelled builtins of src/builtins/impl.rs: abort (line 17)
panics with "Aborting: "; throw (line 776) prints the error built from
the backtrace and calls std::process::exit(1), never returning an Err;
tryEval (line 807) resolves its raw argument, mapping Err to
success=false/value=false and Ok to success=true/value=argument. -/
def Builtin.run (fuel : Nat) (b : Builtin) (backtrace : Backtrace) (argument : Nat) (h : Heap) :
    Outcome Nat × Heap :=
  match fuel with
  | 0 => (.spin, h)
  | fuel + 1 =>
    match b with
    | .abort =>
      match coerceString fuel backtrace argument h with
      | (.ok message, h) => (.panic ("Aborting: " ++ message), h)
      | (r, h) => (r.castFail, h)
    | .throw =>
      match coerceString fuel backtrace argument h with
      | (.ok _, h) => (.exit 1, h)
      | (r, h) => (r.castFail, h)
    | .tryEval =>
      match NixVar.resolve fuel argument backtrace h with
      | (.ok _, h) =>
        let (svid, h) := h.allocVal (.bool true)
        let (svar, h) := h.allocVar (.concrete svid)
        let (vid, h) := h.allocVal
          (.attrset (insertSorted "value" argument (insertSorted "success" svar [])))
        (.ok vid, h)
      | (.err _, h) =>
        let (svid, h) := h.allocVal (.bool false)
        let (svar, h) := h.allocVar (.concrete svid)
        let (fvid, h) := h.allocVal (.bool false)
        let (fvar, h) := h.allocVar (.concrete fvid)
        let (vid, h) := h.allocVal
          (.attrset (insertSorted "value" fvar (insertSorted "success" svar [])))
        (.ok vid, h)
      | (r, h) => (r.castFail, h)
termination_by structural fuel

/-- Modelled from the spec: the FromNixExpr coercion impl for String,
invoked by the builtin macro expansion, is absent from src (only
crates/macros refers to crate::builtins::FromNixExpr); per spec section
4.5 a "string"-shaped argument forces the thunk and applies the
permissive string cast of section 4.1, a mismatch being a typed
error. -/
def coerceString (fuel : Nat) (backtrace : Backtrace) (argument : Nat) (h : Heap) :
    Outcome String × Heap :=
  match fuel with
  | 0 => (.spin, h)
  | fuel + 1 =>
    match NixVar.resolve fuel argument backtrace h with
    | (.ok vid, h) =>
      match (h.vals vid).bind NixValue.asString with
      | some s => (.ok s, h)
      | none => (.err (backtrace.toError .error "Cannot cast value to string"), h)
    | (r, h) => (r.castFail, h)
termination_by structural fuel

/-- Modelled from the spec: visit_select (src/expr.rs line 727) calls a
resolve_attr_path taking a NixVar whose definition is absent from src
(src/scope.rs holds an earlier generation taking NixValueWrapped); per
spec section 4.4 the single-attribute path is followed on the forced
value, a missing attribute being the inner attribute-missing error that
an or-default may catch, and the selected entry is returned as its
unforced thunk. A non-attrset value panics as in the src generation
(NixValue::get Err unwrapped). -/
def selectAttr (fuel : Nat) (var : Nat) (attr : String) (node : Expr) (backtrace : Backtrace)
    (h : Heap) : Outcome (Except NixError Nat) × Heap :=
  match fuel with
  | 0 => (.spin, h)
  | fuel + 1 =>
    match NixVar.resolve fuel var backtrace h with
    | (.ok vid, h) =>
      match h.vals vid with
      | some (.attrset set) =>
        match lookupA attr set with
        | some v => (.ok (.ok v), h)
        | none =>
          (.ok (.error (NixError.fromMessage ⟨node, .attributeMissing, .error⟩
            ("Attribute '\x1b[1;95m" ++ attr ++ "\x1b[0m' missing"))), h)
      | _ => (.panic "Error handling: Should be AttrSet", h)
    | (r, h) => (r.castFail, h)
termination_by structural fuel

/-- LazyNixValue::try_eq (src/value/lazy.rs line 62): resolve both
cells, short-circuit on pointer equality of the resolved value cells,
else structural NixValue::try_eq. -/
def NixVar.tryEq (fuel : Nat) (lhs rhs : Nat) (backtrace : Backtrace) (h : Heap) :
    Outcome Bool × Heap :=
  match fuel with
  | 0 => (.spin, h)
  | fuel + 1 =>
    match LazyNixValue.resolve fuel lhs backtrace h with
    | (.ok lv, h) =>
      match LazyNixValue.resolve fuel rhs backtrace h with
      | (.ok rv, h) =>
        if lv = rv then (.ok true, h)
        else NixValue.tryEq fuel lv rv backtrace h
      | (r, h) => (r.castFail, h)
    | (r, h) => (r.castFail, h)
termination_by structural fuel

/-- NixValue::try_eq (src/value.rs line 212): structural equality;
attrsets compare by length and zipped entries, a List compares by
pointer equality of its element vars (derived PartialEq of NixList over
NixVar), lambdas are never equal, Int and Float compare promoted,
distinct variants are unequal. -/
def NixValue.tryEq (fuel : Nat) (x y : Nat) (backtrace : Backtrace) (h : Heap) :
    Outcome Bool × Heap :=
  match fuel with
  | 0 => (.spin, h)
  | fuel + 1 =>
    match h.vals x, h.vals y with
    | some xv, some yv =>
      match xv, yv with
      | .attrset s1, .attrset s2 =>
        if s1.length ≠ s2.length then (.ok false, h)
        else tryEqEntries fuel s1 s2 backtrace h
      | .bool b1, .bool b2 => (.ok (b1 == b2), h)
      | .float q1, .float q2 => (.ok (q1 == q2), h)
      | .float q1, .int n2 => (.ok (q1 == (n2 : Rat)), h)
      | .int n1, .int n2 => (.ok (n1 == n2), h)
      | .int n1, .float q2 => (.ok ((n1 : Rat) == q2), h)
      | .lambda _, .lambda _ => (.ok false, h)
      | .list l1, .list l2 => (.ok (l1 == l2), h)
      | .null, .null => (.ok true, h)
      | .path p1, .path p2 => (.ok (p1 == p2), h)
      | .str s1, .str s2 => (.ok (s1 == s2), h)
      | _, _ => (.ok false, h)
    | _, _ => (.panic "dangling value cell", h)
termination_by structural fuel

/-- The zipped entry loop of the AttrSet arm of NixValue::try_eq
(src/value.rs line 223). -/
def tryEqEntries (fuel : Nat) (xs ys : List (String × Nat)) (backtrace : Backtrace) (h : Heap) :
    Outcome Bool × Heap :=
  match fuel with
  | 0 => (.spin, h)
  | fuel + 1 =>
    match xs, ys with
    | (k1, v1) :: xs, (k2, v2) :: ys =>
      if k1 ≠ k2 then (.ok false, h)
      else
        match NixVar.tryEq fuel v1 v2 backtrace h with
        | (.ok true, h) => tryEqEntries fuel xs ys backtrace h
        | (.ok false, h) => (.ok false, h)
        | r => r
    | _, _ => (.ok true, h)
termination_by structural fuel

/-- LazyNixValue::resolve_set (src/value/lazy.rs line 301): resolve,
then resolve each attrset or list child once, and recursively when
asked. -/
def LazyNixValue.resolveSet (fuel : Nat) (this : Nat) (recursive : Bool) (backtrace : Backtrace)
    (h : Heap) : Outcome Nat × Heap :=
  match fuel with
  | 0 => (.spin, h)
  | fuel + 1 =>
    match LazyNixValue.resolve fuel this backtrace h with
    | (.ok value, h) =>
      match h.vals value with
      | some (.attrset set) =>
        match resolveVarList fuel (set.map Prod.snd) backtrace h with
        | (.ok _, h) =>
          if recursive then
            match resolveSetVarList fuel (set.map Prod.snd) backtrace h with
            | (.ok _, h) => (.ok value, h)
            | (r, h) => (r.castFail, h)
          else (.ok value, h)
        | (r, h) => (r.castFail, h)
      | some (.list items) =>
        match resolveVarList fuel items backtrace h with
        | (.ok _, h) =>
          if recursive then
            match resolveSetVarList fuel items backtrace h with
            | (.ok _, h) => (.ok value, h)
            | (r, h) => (r.castFail, h)
          else (.ok value, h)
        | (r, h) => (r.castFail, h)
      | some _ => (.ok value, h)
      | none => (.panic "dangling value cell", h)
    | r => r
termination_by structural fuel

/-- The shallow child loop of resolve_set. -/
def resolveVarList (fuel : Nat) (vars : List Nat) (backtrace : Backtrace) (h : Heap) :
    Outcome Unit × Heap :=
  match fuel with
  | 0 => (.spin, h)
  | fuel + 1 =>
    match vars with
    | [] => (.ok (), h)
    | v :: rest =>
      match NixVar.resolve fuel v backtrace h with
      | (.ok _, h) => resolveVarList fuel rest backtrace h
      | (r, h) => (r.castFail, h)
termination_by structural fuel

/-- The recursive child loop of resolve_set. -/
def resolveSetVarList (fuel : Nat) (vars : List Nat) (backtrace : Backtrace) (h : Heap) :
    Outcome Unit × Heap :=
  match fuel with
  | 0 => (.spin, h)
  | fuel + 1 =>
    match vars with
    | [] => (.ok (), h)
    | v :: rest =>
      match LazyNixValue.resolveSet fuel v true backtrace h with
      | (.ok _, h) => resolveSetVarList fuel rest backtrace h
      | (r, h) => (r.castFail, h)

termination_by structural fuel
end

/-- NixVar::resolve_set (src/value/var.rs line 56). -/
def NixVar.resolveSet (fuel : Nat) (v : Nat) (recursive : Bool) (backtrace : Backtrace)
    (h : Heap) : Outcome Nat × Heap :=
  LazyNixValue.resolveSet fuel v recursive backtrace h

/-- The initial heap and root scope built by Scope::new_with_builtins
(src/scope.rs line 35): a globals frame holding the modelled subset of
the top-level bindings (abort, builtins, false, null, throw, true) and
an empty root frame below it. The builtins registry holds the modelled
builtins (abort, throw, tryEval). -/
def initState : Heap × Scope :=
  let h := Heap.empty
  let (abortVal, h) := h.allocVal (.lambda (.builtin .abort))
  let (abortVar, h) := h.allocVar (.concrete abortVal)
  let (throwVal, h) := h.allocVal (.lambda (.builtin .throw))
  let (throwVar, h) := h.allocVar (.concrete throwVal)
  let (tryEvalVal, h) := h.allocVal (.lambda (.builtin .tryEval))
  let (tryEvalVar, h) := h.allocVar (.concrete tryEvalVal)
  let (builtinsVal, h) := h.allocVal
    (.attrset (insertSorted "tryEval" tryEvalVar
      (insertSorted "throw" throwVar (insertSorted "abort" abortVar []))))
  let (builtinsVar, h) := h.allocVar (.concrete builtinsVal)
  let (falseVal, h) := h.allocVal (.bool false)
  let (falseVar, h) := h.allocVar (.concrete falseVal)
  let (trueVal, h) := h.allocVal (.bool true)
  let (trueVar, h) := h.allocVar (.concrete trueVal)
  let (nullVal, h) := h.allocVal .null
  let (nullVar, h) := h.allocVar (.concrete nullVal)
  let globals :=
    insertSorted "abort" abortVar
      (insertSorted "builtins" builtinsVar
        (insertSorted "false" falseVar
          (insertSorted "null" nullVar
            (insertSorted "throw" throwVar
              (insertSorted "true" trueVar [])))))
  let (globalsVal, h) := h.allocVal (.attrset globals)
  let (rootVars, h) := h.allocVal (.attrset [])
  (h, .mk rootVars (some (.mk globalsVal none)))

/-- Evaluate an expression as FileScope::repl_file / raw_evaluate
(src/scope/file.rs) do: wrap the root expression in a Pending thunk
over the root scope with a File-kind backtrace and resolve it through
NixVar::resolve, returning the resolve outcome and the final heap. -/
def runState (fuel : Nat) (e : Expr) : Outcome Nat × Heap :=
  let (h, scope) := initState
  let bt : Backtrace := .mk e none .file
  let (rootVar, h) := h.allocVar (.pending bt scope e)
  NixVar.resolve fuel rootVar bt h

/-- runState followed by reading back the final value cell. -/
def run (fuel : Nat) (e : Expr) : Outcome NixValue :=
  match runState fuel e with
  | (.ok vid, h) =>
    match h.vals vid with
    | some v => .ok v
    | none => .panic "dangling value cell"
  | (r, _) => r.castFail

/-- First-order snapshots of resolved value graphs, for stating
results of deep forcing. -/
inductive SValue where
  | attrset (set : List (String × SValue))
  | bool (b : Bool)
  | float (q : Rat)
  | int (n : Int)
  | lambdaS
  | listS (items : List SValue)
  | null
  | path (p : String)
  | str (s : String)
  | thunk
  | dangling

mutual

/-- Read back the value graph under a value cell, turning attrset and
list children into their snapshots when their var cells are Concrete
and into `thunk` otherwise; an evaluation-free observer. -/
def Heap.snapshot (h : Heap) (fuel : Nat) (valId : Nat) : SValue :=
  match fuel with
  | 0 => .thunk
  | fuel + 1 =>
    match h.vals valId with
    | none => .dangling
    | some (.attrset set) => .attrset (snapshotEntries h fuel set)
    | some (.bool b) => .bool b
    | some (.float q) => .float q
    | some (.int n) => .int n
    | some (.lambda _) => .lambdaS
    | some (.list items) => .listS (snapshotList h fuel items)
    | some .null => .null
    | some (.path p) => .path p
    | some (.str s) => .str s
termination_by structural fuel

def snapshotEntries (h : Heap) (fuel : Nat) (entries : List (String × Nat)) :
    List (String × SValue) :=
  match fuel with
  | 0 => []
  | fuel + 1 =>
    match entries with
    | [] => []
    | (k, v) :: rest =>
      (match h.vars v with
       | some (.concrete vid) => (k, h.snapshot fuel vid)
       | _ => (k, .thunk)) :: snapshotEntries h fuel rest
termination_by structural fuel

def snapshotList (h : Heap) (fuel : Nat) (items : List Nat) : List SValue :=
  match fuel with
  | 0 => []
  | fuel + 1 =>
    match items with
    | [] => []
    | v :: rest =>
      (match h.vars v with
       | some (.concrete vid) => h.snapshot fuel vid
       | _ => .thunk) :: snapshotList h fuel rest
termination_by structural fuel

end

/-- Evaluate and deep-force an expression (resolve_set with
recursive=true, as the command-line driver does before printing), then
snapshot the result. -/
def runDeep (fuel : Nat) (e : Expr) : Outcome SValue :=
  let (h, scope) := initState
  let bt : Backtrace := .mk e none .file
  let (rootVar, h) := h.allocVar (.pending bt scope e)
  match NixVar.resolveSet fuel rootVar true bt h with
  | (.ok vid, h) => .ok (h.snapshot fuel vid)
  | (r, _) => r.castFail

/-- BacktraceEnv (src/result/backtrace.rs line 22). -/
inductive BacktraceEnv where
  | disabled
  | enabled
  | full
  deriving DecidableEq

/-- Rust str::starts_with("f") for the one-character prefix the
initializer tests: true exactly when the first character is f. -/
def startsWithF (s : String) : Bool :=
  match s.data with
  | c :: _ => c = 'f'
  | [] => false

/-- The BACKTRACE_ENV initializer (src/result/backtrace.rs line 12):
std::env::var("NIX_BACKTRACE") is Ok(value) whenever the variable is
set (also when set to the empty string) and Err when unset; a set value
starting with "f" maps to Full, any other set value to Enabled, and
only the unset case to Disabled. -/
def backtraceEnv (envVar : Option String) : BacktraceEnv :=
  match envVar with
  | some env => if startsWithF env then .full else .enabled
  | none => .disabled

/-! ## Store-path computation (src/derivation/mod.rs, src/derivation/hash.rs)

The SHA-256 digest itself is computed by openssl in the source
(src/builtins/hash.rs delegates to openssl::hash); the external
function is modelled by a direct FIPS-180-4 implementation over byte
lists (naturals below 256), validated against the decode_store_hash
unit test vector of src/derivation/hash.rs. -/

/-- Truncate to a 32-bit word. -/
def w32 (x : Nat) : Nat := x % 4294967296

/-- 32-bit right rotation. -/
def rotr32 (n x : Nat) : Nat := w32 ((x >>> n) ||| (x <<< (32 - n)))

def sigmaS0 (x : Nat) : Nat := (rotr32 7 x) ^^^ (rotr32 18 x) ^^^ (x >>> 3)

def sigmaS1 (x : Nat) : Nat := (rotr32 17 x) ^^^ (rotr32 19 x) ^^^ (x >>> 10)

def sigmaB0 (x : Nat) : Nat := (rotr32 2 x) ^^^ (rotr32 13 x) ^^^ (rotr32 22 x)

def sigmaB1 (x : Nat) : Nat := (rotr32 6 x) ^^^ (rotr32 11 x) ^^^ (rotr32 25 x)

def chF (x y z : Nat) : Nat := (x &&& y) ^^^ ((x ^^^ 4294967295) &&& z)

def majF (x y z : Nat) : Nat := (x &&& y) ^^^ (x &&& z) ^^^ (y &&& z)

/-- The SHA-256 round constants. -/
def sha256K : List Nat :=
  [1116352408, 1899447441, 3049323471, 3921009573, 961987163, 1508970993,
   2453635748, 2870763221, 3624381080, 310598401, 607225278, 1426881987,
   1925078388, 2162078206, 2614888103, 3248222580, 3835390401, 4022224774,
   264347078, 604807628, 770255983, 1249150122, 1555081692, 1996064986,
   2554220882, 2821834349, 2952996808, 3210313671, 3336571891, 3584528711,
   113926993, 338241895, 666307205, 773529912, 1294757372, 1396182291,
   1695183700, 1986661051, 2177026350, 2456956037, 2730485921, 2820302411,
   3259730800, 3345764771, 3516065817, 3600352804, 4094571909, 275423344,
   430227734, 506948616, 659060556, 883997877, 958139571, 1322822218,
   1537002063, 1747873779, 1955562222, 2024104815, 2227730452, 2361852424,
   2428436474, 2756734187, 3204031479, 3329325298]

/-- The SHA-256 initial state. -/
def sha256H0 : List Nat :=
  [1779033703, 3144134277, 1013904242, 2773480762,
   1359893119, 2600822924, 528734635, 1541459225]

/-- Big-endian 8-byte rendering of a length in bits. -/
def be64 (n : Nat) : List Nat :=
  [n >>> 56 % 256, n >>> 48 % 256, n >>> 40 % 256, n >>> 32 % 256,
   n >>> 24 % 256, n >>> 16 % 256, n >>> 8 % 256, n % 256]

/-- FIPS padding: 0x80, zeros to 56 mod 64, then the bit length. -/
def sha256pad (msg : List Nat) : List Nat :=
  msg ++ [128] ++ List.replicate ((119 - msg.length % 64) % 64) 0 ++ be64 (8 * msg.length)

/-- Big-endian 32-bit words of a byte list. -/
def toWords : List Nat → List Nat
  | a :: b :: c :: d :: rest => (((a <<< 8 ||| b) <<< 8 ||| c) <<< 8 ||| d) :: toWords rest
  | _ => []

/-- 64-byte chunks of the padded message. -/
def chunks64 (fuel : Nat) (l : List Nat) : List (List Nat) :=
  match fuel with
  | 0 => []
  | fuel + 1 =>
    match l with
    | [] => []
    | l => l.take 64 :: chunks64 fuel (l.drop 64)

/-- Message-schedule extension: append words 16..63. -/
def extendW (ws : List Nat) : Nat → List Nat
  | 0 => ws
  | n + 1 =>
    extendW
      (ws ++ [w32 (sigmaS1 (ws.getD (ws.length - 2) 0) + ws.getD (ws.length - 7) 0 +
                   sigmaS0 (ws.getD (ws.length - 15) 0) + ws.getD (ws.length - 16) 0)]) n

/-- One compression round on the 8-word working state. -/
def sha256Round (st : List Nat) (k w : Nat) : List Nat :=
  match st with
  | [a, b, c, d, e, f, g, hh] =>
    let t1 := w32 (hh + sigmaB1 e + chF e f g + k + w)
    let t2 := w32 (sigmaB0 a + majF a b c)
    [w32 (t1 + t2), a, b, c, w32 (d + t1), e, f, g]
  | st => st

def sha256Rounds (st : List Nat) : List (Nat × Nat) → List Nat
  | [] => st
  | (k, w) :: rest => sha256Rounds (sha256Round st k w) rest

/-- Compress one 64-byte chunk into the hash state. -/
def sha256Compress (hstate : List Nat) (chunk : List Nat) : List Nat :=
  let ws := extendW (toWords chunk) 48
  let st := sha256Rounds hstate (sha256K.zip ws)
  (hstate.zip st).map (fun p => w32 (p.1 + p.2))

/-- Big-endian bytes of the word list. -/
def wordsToBytes : List Nat → List Nat
  | [] => []
  | w :: ws => (w >>> 24) % 256 :: (w >>> 16) % 256 :: (w >>> 8) % 256 :: w % 256 :: wordsToBytes ws

/-- SHA-256 of a byte list: the 32-byte digest. -/
def sha256 (msg : List Nat) : List Nat :=
  wordsToBytes ((chunks64 (msg.length + 9) (sha256pad msg)).foldl sha256Compress sha256H0)

/-- UTF-8 bytes of a string; every string the claims hash is ASCII, so
the code points are the bytes. -/
def strBytes (s : String) : List Nat := s.data.map Char.toNat

/-- Algorithm (src/builtins/hash.rs line 9). -/
inductive Algorithm where
  | md5
  | sha1
  | sha256
  | sha512
  deriving DecidableEq

/-- The fmt::Display of Algorithm (src/derivation/mod.rs line 225). -/
def Algorithm.display : Algorithm → String
  | .md5 => "md5"
  | .sha1 => "sha1"
  | .sha256 => "sha256"
  | .sha512 => "sha512"

/-- Hash (src/derivation/hash.rs line 9): algorithm, used size, and the
64-byte backing array (MAX_HASH_SIZE), modelled as a byte list read
through getD with default 0. -/
structure Hash where
  algorithm : Algorithm
  hash_size : Nat
  hash : List Nat
  deriving DecidableEq

def Hash.hashAt (h : Hash) (i : Nat) : Nat := h.hash.getD i 0

/-- Hash::new_empty (src/derivation/hash.rs line 106). -/
def Hash.newEmpty (algorithm : Algorithm) : Hash :=
  { algorithm := algorithm
    hash_size :=
      match algorithm with
      | .md5 => 16
      | .sha1 => 20
      | .sha256 => 32
      | .sha512 => 64
    hash := List.replicate 64 0 }

/-- The shared hexadecimal rendering of a byte list: two lowercase
digits per byte, high nibble first (BASE16_CHARS in
src/derivation/hash.rs line 121, and the hex() of spec section 6). -/
def hexBytes (bytes : List Nat) : String :=
  String.mk (bytes.foldr (fun b acc =>
    "0123456789abcdef".data.getD (b >>> 4) '0' ::
    "0123456789abcdef".data.getD (b &&& 15) '0' :: acc) [])

/-- Hash::print_base16 (src/derivation/hash.rs line 123). -/
def Hash.printBase16 (h : Hash) : String := hexBytes (h.hash.take h.hash_size)

/-- The Nix base-32 alphabet digit (BASE32_CHARS, src/derivation/hash.rs
line 133). -/
def nix32Char (d : Nat) : Char := "0123456789abcdfghijklmnpqrsvwxyz".data.getD d '0'

/-- Hash::base32 (src/derivation/hash.rs line 177): length of the
base-32 rendering. -/
def base32Len (hashSize : Nat) : Nat := (hashSize * 8 - 1) / 5 + 1

/-- Hash::print_base32 (src/derivation/hash.rs line 135): characters
pushed for n from len-1 down to 0; character n packs bits of bytes
b/8 and b/8+1 at b = 5n. -/
def Hash.printBase32 (h : Hash) : String :=
  String.mk (((List.range (base32Len h.hash_size)).reverse).map (fun n =>
    let b := n * 5
    let i := b / 8
    let j := b % 8
    nix32Char (((h.hashAt i >>> j) |||
      (if h.hash_size - 1 ≤ i then 0 else h.hashAt (i + 1) <<< (8 - j))) &&& 31)))

/-- ContentAddressMethod (src/derivation/mod.rs line 62). -/
inductive ContentAddressMethod where
  | flat
  | git
  | nixArchive
  | text
  deriving DecidableEq

/-- DerivationOutput (src/derivation/mod.rs line 38). -/
inductive DerivationOutput where
  | deferred
  | caFloating (method : ContentAddressMethod) (algorithm : Algorithm)
  | caFixed (method : ContentAddressMethod) (hash : Hash)
  | impure (method : ContentAddressMethod) (algorithm : Algorithm)
  | inputAddressed (s : String)
  deriving DecidableEq

/-- Association-list lookup for outputs (BTreeMap::get). -/
def lookupOutput (k : String) : List (String × DerivationOutput) → Option DerivationOutput
  | [] => none
  | (k', v) :: rest => if k = k' then some v else lookupOutput k rest

/-- Derivation (src/derivation/mod.rs line 22); the extra_fields side
mapping lives on the interpreter side and is not needed by path(). -/
structure Derivation where
  outputs : List (String × DerivationOutput)
  input_derivations : List (String × List String)
  input_sources : List String
  platform : String
  builder : String
  args : List String
  env : List (String × String)
  name : String

/-- The XOR fold of Derivation::path (src/derivation/mod.rs line 287):
for i in 0..size, hash_part.hash[i % 20] ^= hashed[i], on the 64-byte
backing array of Hash::new_empty. -/
def xorFold (digest : List Nat) (size : Nat) : List Nat :=
  (List.range size).foldl
    (fun acc i => acc.set (i % 20) (acc.getD (i % 20) 0 ^^^ digest.getD i 0))
    (List.replicate 64 0)

/-- Derivation::path (src/derivation/mod.rs line 251) for an output
name: the CAFixed nar/sha256 case computes the fingerprint, hashes it
with SHA-256 (Hasher::finish_with, an openssl digest modelled by
sha256), folds the digest to 20 bytes and renders it in Nix base-32.
The todo!() arms (Deferred, CAFloating, Impure, InputAddressed, and
CAFixed combinations other than nar/sha256), which panic in the
source, and the git/non-sha1 None are both modelled as none; no claim
distinguishes them. -/
def Derivation.path (d : Derivation) (name : String) : Option String :=
  match lookupOutput name d.outputs with
  | none => none
  | some output =>
    let path_name := if name = "out" then d.name else d.name ++ "-" ++ name
    match output with
    | .caFixed method hsh =>
      if method = .git ∧ hsh.algorithm ≠ .sha1 then none
      else if method = .nixArchive ∧ hsh.algorithm = .sha256 then
        let hashed := sha256 (strBytes
          ("source:" ++ hsh.algorithm.display ++ ":" ++ hsh.printBase16 ++
            ":/nix/store:" ++ path_name))
        let hash_part : Hash :=
          { Hash.newEmpty hsh.algorithm with hash_size := 20, hash := xorFold hashed hsh.hash_size }
        some ("/nix/store/" ++ hash_part.printBase32 ++ "-" ++ path_name)
      else none
    | _ => none

/-! Spec-side store-path definitions, written from the words of spec
section 6 (steps 1 to 5) for comparison with Derivation::path. -/

/-- Little-endian (least-significant octet first) value of a byte
list. -/
def bytesToNatLE : List Nat → Nat
  | [] => 0
  | b :: rest => b + 256 * bytesToNatLE rest

/-- Spec step 3: fold the 32-byte digest into a 20-byte compressed
digest by compressed[i % 20] ^= digest[i] for i in 0..32. -/
def specCompress (digest : List Nat) : List Nat :=
  (List.range 32).foldl
    (fun acc i => acc.set (i % 20) (acc.getD (i % 20) 0 ^^^ digest.getD i 0))
    (List.replicate 20 0)

/-- Spec step 4: emit in Nix base-32, the i-th character (lowest-order
first, then reversed) taken from bits 5i..5i+5 of the digest read
least-significant octet first. -/
def specBase32 (digest : List Nat) : String :=
  String.mk (((List.range ((digest.length * 8 - 1) / 5 + 1)).map (fun i =>
    nix32Char ((bytesToNatLE digest >>> (5 * i)) % 32))).reverse)

/-- Spec steps 1 to 5 assembled: the store path of a fixed-output
nar/sha256 output named k. -/
def specStorePath (name k : String) (hsh : Hash) : String :=
  let pathName := if k = "out" then name else name ++ "-" ++ k
  let fingerprint :=
    "source:sha256:" ++ hexBytes (hsh.hash.take 32) ++ ":/nix/store:" ++ pathName
  "/nix/store/" ++ specBase32 (specCompress (sha256 (strBytes fingerprint))) ++ "-" ++ pathName

/-! ## Concrete inputs exercised by the claims -/

/-- builtins.tryEval (throw "nope"). -/
def progTryEvalThrow : Expr :=
  .apply (.select (.ident "builtins") "tryEval" none) (.apply (.ident "throw") (.str "nope"))

/-- builtins.tryEval of a thunk whose forcing raises an Err (an unbound
variable behind a let body, so the error arises during forcing rather
than during argument visiting). -/
def progTryEvalErr : Expr :=
  .apply (.select (.ident "builtins") "tryEval" none) (.letIn [] (.ident "qq"))

/-- builtins.tryEval of a thunk that forces successfully. -/
def progTryEvalOk : Expr :=
  .apply (.select (.ident "builtins") "tryEval" none) (.letIn [] (.litInt 42))

def updLhs : Expr := .attrs false [("a", .litInt 1)]

def updRhs : Expr := .attrs false [("a", .litInt 2), ("b", .litInt 3)]

/-- The update scenario of the claims: { a = 1; } // { a = 2; b = 3; }. -/
def progUpdate : Expr := .binop .update updLhs updRhs

/-- ({ a = 1; } // { a = 2; b = 3; }).a -/
def progUpdateSelect : Expr := .select progUpdate "a" none

/-- Evaluation of { a = 1; } // R for an arbitrary right operand. -/
def updVisit (R : Expr) : Outcome Nat × Heap :=
  let (h, scope) := initState
  visitExpr 30 scope (.mk (.binop .update updLhs R) none .file) (.binop .update updLhs R) h

/-- The update node of the generic-laziness witness instance: an
empty attrset literal updated by the literal 5. -/
def c2Prog : Expr := .binop .update (.attrs false []) (.litInt 5)

def c2Scope : Scope := .mk 0 none

def c2Bt : Backtrace := .mk c2Prog none .file

/-- Heap after evaluating the left operand of c2Prog. -/
def c2LhsHeap : Heap := ((Heap.empty.allocVal (.attrset [])).2.allocVar (.concrete 0)).2

/-- A heap whose var 0 is an UpdateResolve thunk over an attrset lhs
value (val 0) and an empty-attrset rhs expression. -/
def c2ForceHeap : Heap :=
  ((Heap.empty.allocVal (.attrset [("a", 5)])).2.allocVar
    (.updateResolve 0 (.attrs false []) c2Bt c2Scope)).2

/-- c2ForceHeap after the stored rhs of the UpdateResolve thunk was
evaluated under the Resolving cell. -/
def c2RhsHeap : Heap :=
  ((((c2ForceHeap.writeVar 0 (.resolving c2Bt c2Bt)).writeVar 0
      (.concrete 0)).allocVal (.attrset [])).2.allocVar (.concrete 1)).2

/-- let x = x; in x -/
def progSelfRec : Expr := .letIn [("x", .ident "x")] (.ident "x")

/-- let x = y; y = x; in x -/
def progMutualRec : Expr := .letIn [("x", .ident "y"), ("y", .ident "x")] (.ident "x")

/-- let x = 1; in with { x = 2; }; x -/
def progWithShadow : Expr :=
  .letIn [("x", .litInt 1)] (.withE (.attrs false [("x", .litInt 2)]) (.ident "x"))

def c10Bt : Backtrace := .mk (.ident "zz") none .none

/-- A heap with one shared thunk cell (var 7) whose forcing fails:
Pending over an unbound identifier. -/
def c10FailHeap : Heap :=
  (initState.1.allocVar (.pending c10Bt initState.2 (.ident "zz"))).2

/-- A heap holding one lambda value cell (val 0) shared through one var
cell (var 0) by two attrsets (vals 1 and 2). -/
def c10SharedHeap : Heap :=
  let h := Heap.empty
  let (lv, h) := h.allocVal (.lambda (.apply (.mk 0 none) "x" (.ident "x")))
  let (w, h) := h.allocVar (.concrete lv)
  let (_, h) := h.allocVal (.attrset [("f", w)])
  let (_, h) := h.allocVal (.attrset [("f", w)])
  h

/-- A heap holding two structurally identical but separately built
lambda value cells (vals 0 and 1) referenced by two attrsets (vals 2
and 3). -/
def c10SepHeap : Heap :=
  let h := Heap.empty
  let (lv1, h) := h.allocVal (.lambda (.apply (.mk 0 none) "x" (.ident "x")))
  let (_, h) := h.allocVar (.concrete lv1)
  let (lv2, h) := h.allocVal (.lambda (.apply (.mk 0 none) "x" (.ident "x")))
  let (_, h) := h.allocVar (.concrete lv2)
  let (_, h) := h.allocVal (.attrset [("f", 0)])
  let (_, h) := h.allocVal (.attrset [("f", 1)])
  h

/-- The fixed-output hash of the decode_store_hash unit test
(src/derivation/hash.rs line 193):
sha256 8abe211b65483efdec7bb25f5aa08cfec88ba8510592684c5bf2060a8732e8f7. -/
def testFixedHash : Hash :=
  { algorithm := .sha256
    hash_size := 32
    hash := [138, 190, 33, 27, 101, 72, 62, 253, 236, 123, 178, 95, 90, 160, 140, 254,
             200, 139, 168, 81, 5, 146, 104, 76, 91, 242, 6, 10, 135, 50, 232, 247] ++
            List.replicate 32 0 }

/-- A fixed-output NAR/SHA-256 derivation named source around
testFixedHash. -/
def testDrv : Derivation :=
  { outputs := [("out", .caFixed .nixArchive testFixedHash)]
    input_derivations := []
    input_sources := []
    platform := "x86_64-linux"
    builder := "/bin/sh"
    args := []
    env := []
    name := "source" }

/-! ## Helper lemmas on the thunk state machine -/

theorem writeVar_read_self (h : Heap) (i : Nat) (x : LazyNixValue) :
    (h.writeVar i x).vars i = some x := by
  simp [Heap.writeVar]

/-- A successful LazyNixValue::resolve leaves the cell Concrete at the
returned value, or UpdateResolve with the returned value as its lhs. -/
theorem lazyResolve_ok_state :
    ∀ (fuel : Nat) (a : Nat) (bt : Backtrace) (h : Heap) (v : Nat) (h' : Heap),
    LazyNixValue.resolve fuel a bt h = (.ok v, h') →
    h'.vars a = some (.concrete v) ∨ ∃ r b s, h'.vars a = some (.updateResolve v r b s) := by
  intro fuel
  induction fuel with
  | zero =>
    intro a bt h v h' hres
    simp [LazyNixValue.resolve] at hres
  | succ fuel ih =>
    intro a bt h v h' hres
    rw [LazyNixValue.resolve] at hres
    split at hres
    · simp at hres
    · simp only [Prod.mk.injEq, Outcome.ok.injEq] at hres
      obtain ⟨rfl, rfl⟩ := hres
      rename_i heq
      exact Or.inl heq
    · simp at hres
    · split at hres
      · split at hres
        · exact ih _ _ _ _ _ hres
        · split at hres
          · simp only [Prod.mk.injEq, Outcome.ok.injEq] at hres
            obtain ⟨rfl, rfl⟩ := hres
            exact Or.inl (writeVar_read_self ..)
          · simp_all
      · simp_all
    · split at hres
      · split at hres
        · split at hres
          · split at hres
            · split at hres
              simp only [Prod.mk.injEq, Outcome.ok.injEq] at hres
              obtain ⟨rfl, rfl⟩ := hres
              exact Or.inr ⟨_, _, _, writeVar_read_self ..⟩
            · simp at hres
          · simp at hres
        · split at hres
          · split at hres
            · split at hres
              · split at hres
                simp only [Prod.mk.injEq, Outcome.ok.injEq] at hres
                obtain ⟨rfl, rfl⟩ := hres
                exact Or.inl (writeVar_read_self ..)
              · simp at hres
            · simp at hres
          · simp_all
      · simp_all

/-- The UpdateResolve loop of NixVar::resolve drives the cell to
Concrete at the returned value. -/
theorem resolveLoop_ok_state :
    ∀ (fuel : Nat) (v : Nat) (bt : Backtrace) (out : Nat) (h : Heap) (vv : Nat) (h' : Heap),
    NixVar.resolveLoop fuel v bt out h = (.ok vv, h') →
    (h.vars v = some (.concrete out) ∨ ∃ r b s, h.vars v = some (.updateResolve out r b s)) →
    h'.vars v = some (.concrete vv) := by
  intro fuel
  induction fuel with
  | zero =>
    intro v bt out h vv h' hres _
    simp [NixVar.resolveLoop] at hres
  | succ fuel ih =>
    intro v bt out h vv h' hres hstate
    rw [NixVar.resolveLoop] at hres
    split at hres
    · split at hres
      · rename_i out2 h2 hres2
        exact ih _ _ _ _ _ _ hres (lazyResolve_ok_state _ _ _ _ _ _ hres2)
      · simp_all
    · simp only [Prod.mk.injEq, Outcome.ok.injEq] at hres
      obtain ⟨rfl, rfl⟩ := hres
      rcases hstate with hc | ⟨r, b, s, hu⟩
      · exact hc
      · rename_i hne
        exact absurd hu (hne _ _ _ _)

/-- A successful NixVar::resolve leaves the cell Concrete at the
returned value. -/
theorem varResolve_ok_state :
    ∀ (fuel : Nat) (v : Nat) (bt : Backtrace) (h : Heap) (vv : Nat) (h' : Heap),
    NixVar.resolve fuel v bt h = (.ok vv, h') →
    h'.vars v = some (.concrete vv) := by
  intro fuel v bt h vv h' hres
  match fuel with
  | 0 => simp [NixVar.resolve] at hres
  | fuel + 1 =>
    rw [NixVar.resolve] at hres
    split at hres
    · simp only [Prod.mk.injEq, Outcome.ok.injEq] at hres
      obtain ⟨rfl, rfl⟩ := hres
      rename_i heq
      exact heq
    · split at hres
      · rename_i out h2 hres2
        exact resolveLoop_ok_state _ _ _ _ _ _ _ hres (lazyResolve_ok_state _ _ _ _ _ _ hres2)
      · simp_all

/-- NixVar::resolve on a Concrete cell returns the shared value with
the heap untouched. -/
theorem varResolve_concrete_noop :
    ∀ (fuel : Nat) (v : Nat) (bt : Backtrace) (h : Heap) (value : Nat),
    h.vars v = some (.concrete value) →
    NixVar.resolve (fuel + 1) v bt h = (.ok value, h) := by
  intro fuel v bt h value heq
  rw [NixVar.resolve, heq]

/-! ## Helper lemmas for the update operator -/

theorem lookupA_insertSorted (k k2 : String) (v : Nat) (l : List (String × Nat)) :
    lookupA k (insertSorted k2 v l) = if k = k2 then some v else lookupA k l := by
  induction l with
  | nil => simp [insertSorted, lookupA]
  | cons p rest ih =>
    obtain ⟨k3, v3⟩ := p
    by_cases h1 : k2 < k3
    · simp [insertSorted, h1, lookupA]
    · by_cases h2 : k2 = k3
      · subst h2
        by_cases h3 : k = k2 <;> simp [insertSorted, h1, lookupA, h3]
      · by_cases h3 : k = k3
        · subst h3
          simp [insertSorted, h1, h2, lookupA, Ne.symm h2]
        · simp [insertSorted, h1, h2, lookupA, h3, ih]

theorem lookupA_eq_none_of_not_mem (k : String) (l : List (String × Nat))
    (hk : k ∉ l.map Prod.fst) : lookupA k l = none := by
  induction l with
  | nil => rfl
  | cons p rest ih =>
    obtain ⟨k1, v1⟩ := p
    simp only [List.map_cons, List.mem_cons] at hk
    push_neg at hk
    simp [lookupA, hk.1, ih hk.2]

theorem lookupA_extendA (k : String) (more : List (String × Nat))
    (hnd : (more.map Prod.fst).Nodup) :
    ∀ base, lookupA k (extendA base more)
      = match lookupA k more with
        | some v => some v
        | none => lookupA k base := by
  induction more with
  | nil => intro base; simp [extendA, lookupA]
  | cons p rest ih =>
    obtain ⟨k1, v1⟩ := p
    intro base
    simp only [List.map_cons, List.nodup_cons] at hnd
    have hstep : extendA base ((k1, v1) :: rest) = extendA (insertSorted k1 v1 base) rest := rfl
    rw [hstep, ih hnd.2]
    by_cases hk : k = k1
    · subst hk
      rw [lookupA_eq_none_of_not_mem _ _ hnd.1]
      simp [lookupA, lookupA_insertSorted]
    · rw [lookupA_insertSorted]
      simp only [hk, if_false]
      cases hr : lookupA k rest <;> simp [lookupA, hk, hr]

theorem extendA_right_wins (lhsSet rhsSet : List (String × Nat))
    (hnd : (rhsSet.map Prod.fst).Nodup) (k : String) (v : Nat)
    (hv : lookupA k rhsSet = some v) :
    lookupA k (extendA (extendA [] lhsSet) rhsSet) = some v := by
  rw [lookupA_extendA k rhsSet hnd, hv]

theorem extendA_left_kept (lhsSet rhsSet : List (String × Nat))
    (hndl : (lhsSet.map Prod.fst).Nodup) (hndr : (rhsSet.map Prod.fst).Nodup)
    (k : String) (hv : lookupA k rhsSet = none) :
    lookupA k (extendA (extendA [] lhsSet) rhsSet) = lookupA k lhsSet := by
  rw [lookupA_extendA k rhsSet hndr, hv, lookupA_extendA k lhsSet hndl]
  cases lookupA k lhsSet <;> simp [lookupA]

theorem extendA_union (lhsSet rhsSet : List (String × Nat))
    (hndl : (lhsSet.map Prod.fst).Nodup) (hndr : (rhsSet.map Prod.fst).Nodup)
    (k : String) :
    lookupA k (extendA (extendA [] lhsSet) rhsSet) = none ↔
      lookupA k lhsSet = none ∧ lookupA k rhsSet = none := by
  cases hv : lookupA k rhsSet with
  | some v => simp [extendA_right_wins lhsSet rhsSet hndr k v hv, hv]
  | none => simp [extendA_left_kept lhsSet rhsSet hndl hndr k hv, hv]

theorem visitExpr_update_lazy (fuel : Nat) (scope : Scope) (bt : Backtrace) (L R : Expr)
    (h h₁ h₂ : Heap) (lhsVar lhs : Nat) (set : List (String × Nat))
    (hL : visitExpr fuel scope (bt.visit (.binop .update L R)) L h = (.ok lhsVar, h₁))
    (hres : NixVar.resolve fuel lhsVar (bt.visit (.binop .update L R)) h₁ = (.ok lhs, h₂))
    (hset : h₂.vals lhs = some (.attrset set)) :
    visitExpr (fuel + 2) scope bt (.binop .update L R) h
      = (.ok h₂.varCount,
         (h₂.allocVar (.updateResolve lhs R (bt.visit (.binop .update L R)) scope)).2) := by
  rw [visitExpr]
  simp only [visitBinOp, hL, hres, hset, Heap.allocVar]
  simp [NixValue.asAttrSet]

theorem updateResolve_force (fuel : Nat) (this lhs : Nat) (rhsExpr : Expr)
    (defBt bt : Backtrace) (scope : Scope) (h h₁ h₂ : Heap) (rhsVar rhsVal : Nat)
    (lhsSet rhsSet : List (String × Nat))
    (hcell : h.vars this = some (.updateResolve lhs rhsExpr defBt scope))
    (hrhs : visitExpr fuel scope defBt rhsExpr
        ((h.writeVar this (.resolving defBt bt)).writeVar this (.concrete lhs))
      = (.ok rhsVar, h₁))
    (hnu : ∀ a b c d, h₁.vars rhsVar ≠ some (.updateResolve a b c d))
    (hres : NixVar.resolve fuel rhsVar defBt h₁ = (.ok rhsVal, h₂))
    (hrset : h₂.vals rhsVal = some (.attrset rhsSet))
    (hlset : h₂.vals lhs = some (.attrset lhsSet)) :
    LazyNixValue.resolve (fuel + 1) this bt h
      = (.ok h₂.valCount,
         ((h₂.allocVal (.attrset (extendA (extendA [] lhsSet) rhsSet))).2).writeVar this
           (.concrete h₂.valCount))
    ∧ NixVar.resolve (fuel + 2) this bt h
      = (.ok h₂.valCount,
         ((h₂.allocVal (.attrset (extendA (extendA [] lhsSet) rhsSet))).2).writeVar this
           (.concrete h₂.valCount))
    ∧ (((h₂.allocVal (.attrset (extendA (extendA [] lhsSet) rhsSet))).2).writeVar this
         (.concrete h₂.valCount)).vals h₂.valCount
       = some (.attrset (extendA (extendA [] lhsSet) rhsSet)) := by
  have hlazy : LazyNixValue.resolve (fuel + 1) this bt h
      = (.ok h₂.valCount,
         ((h₂.allocVal (.attrset (extendA (extendA [] lhsSet) rhsSet))).2).writeVar this
           (.concrete h₂.valCount)) := by
    rw [LazyNixValue.resolve]
    simp only [hcell, hrhs]
    cases hvr : h₁.vars rhsVar with
    | none =>
      simp only [hvr, hres, hrset, hlset]
      simp [NixValue.asAttrSet, Heap.allocVal]
    | some cell =>
      cases cell with
      | updateResolve a b c d => exact absurd hvr (hnu a b c d)
      | concrete cv =>
        simp only [hvr, hres, hrset, hlset]
        simp [NixValue.asAttrSet, Heap.allocVal]
      | pending pb ps pe =>
        simp only [hvr, hres, hrset, hlset]
        simp [NixValue.asAttrSet, Heap.allocVal]
      | resolving rb ru =>
        simp only [hvr, hres, hrset, hlset]
        simp [NixValue.asAttrSet, Heap.allocVal]
  refine ⟨hlazy, ?_, ?_⟩
  · rw [NixVar.resolve]
    simp only [hcell, hlazy, NixVar.resolveLoop]
    simp [Heap.writeVar]
  · simp [Heap.writeVar, Heap.allocVal]

/-! ## Helper lemmas for the store-path computation -/

theorem lor_two_pow_eq_add {k x : Nat} (y : Nat) (hx : x < 2 ^ k) :
    x ||| y <<< k = x + y <<< k := by
  apply Nat.eq_of_testBit_eq
  intro i
  rw [Nat.testBit_lor, Nat.testBit_shiftLeft]
  have hsum : x + y <<< k = 2 ^ k * y + x := by
    rw [Nat.shiftLeft_eq]; ring
  rw [hsum, Nat.testBit_mul_pow_two_add _ hx]
  by_cases hik : i < k
  · simp [hik, Nat.not_le.mpr hik]
  · have hle : k ≤ i := Nat.le_of_not_lt hik
    have hx' : x < 2 ^ i := lt_of_lt_of_le hx (Nat.pow_le_pow_right (by norm_num) hle)
    simp [hik, hle, Nat.testBit_lt_two_pow hx']

theorem windowChar (j b c r : Nat) (hj : j < 8) (hb : b < 256) :
    ((b >>> j) ||| (c <<< (8 - j))) &&& 31 =
    ((b + 256 * (c + 256 * r)) >>> j) % 32 := by
  have hx : b >>> j < 2 ^ (8 - j) := by
    rw [Nat.shiftRight_eq_div_pow]
    interval_cases j <;> norm_num <;> omega
  rw [lor_two_pow_eq_add c hx]
  rw [show (31 : Nat) = 2 ^ 5 - 1 by norm_num, Nat.and_pow_two_sub_one_eq_mod]
  rw [Nat.shiftLeft_eq, Nat.shiftRight_eq_div_pow, Nat.shiftRight_eq_div_pow]
  interval_cases j <;> norm_num <;> omega

theorem getD_tail (l : List Nat) (i : Nat) : l.tail.getD i 0 = l.getD (i + 1) 0 := by
  cases l <;> simp [List.getD_cons_succ]

theorem getD_drop (l : List Nat) (i m : Nat) : (l.drop i).getD m 0 = l.getD (i + m) 0 := by
  simp [List.getD_eq_getElem?_getD, List.getElem?_drop]

theorem bytesToNatLE_shiftRight_eight (l : List Nat) (hb : ∀ i, l.getD i 0 < 256) :
    bytesToNatLE l >>> 8 = bytesToNatLE l.tail := by
  cases l with
  | nil => simp [bytesToNatLE]
  | cons b rest =>
    have hb0 : b < 256 := by simpa using hb 0
    rw [Nat.shiftRight_eq_div_pow]
    simp only [bytesToNatLE, List.tail_cons]
    omega

theorem bytesToNatLE_shiftRight (l : List Nat) (hb : ∀ i, l.getD i 0 < 256) (i : Nat) :
    bytesToNatLE l >>> (8 * i) = bytesToNatLE (l.drop i) := by
  induction i with
  | zero => simp
  | succ i ih =>
    have h8 : 8 * (i + 1) = 8 * i + 8 := by ring
    rw [h8, Nat.shiftRight_add, ih, bytesToNatLE_shiftRight_eight _ (fun m => by
      rw [getD_drop]; exact hb _), List.tail_drop]

theorem codeChar_eq_specDigit (l : List Nat) (hlen : l.length = 20)
    (hb : ∀ i, l.getD i 0 < 256) (n : Nat) (hn : n < 32) :
    ((l.getD (n * 5 / 8) 0 >>> (n * 5 % 8)) |||
      (if 20 - 1 ≤ n * 5 / 8 then 0 else l.getD (n * 5 / 8 + 1) 0 <<< (8 - n * 5 % 8))) &&& 31
    = (bytesToNatLE l >>> (5 * n)) % 32 := by
  have h5n : 5 * n = 8 * (n * 5 / 8) + n * 5 % 8 := by omega
  rw [h5n, Nat.shiftRight_add, bytesToNatLE_shiftRight l hb]
  rcases Nat.lt_or_ge (n * 5 / 8) 19 with hi | hi
  · -- two-byte window
    rw [if_neg (by omega)]
    have hi1 : n * 5 / 8 < l.length := by omega
    have hi2 : n * 5 / 8 + 1 < l.length := by omega
    rw [List.drop_eq_getElem_cons hi1, List.drop_eq_getElem_cons hi2]
    simp only [bytesToNatLE]
    rw [← List.getD_eq_getElem l 0 hi1, ← List.getD_eq_getElem l 0 hi2]
    exact windowChar _ _ _ _ (by omega) (hb _)
  · -- last character: n = 31, i = 19, j = 3
    have hn31 : n = 31 := by omega
    subst hn31
    norm_num
    have h19 : (19 : Nat) < l.length := by omega
    rw [List.drop_eq_getElem_cons h19, List.drop_eq_nil_of_le (by omega)]
    simp only [bytesToNatLE]
    rw [← List.getD_eq_getElem l 0 h19]
    rw [show (31 : Nat) = 2 ^ 5 - 1 by norm_num, Nat.and_pow_two_sub_one_eq_mod]
    rw [Nat.shiftRight_eq_div_pow]
    have := hb 19
    norm_num
    omega

theorem getD_set (l : List Nat) (i j v : Nat) :
    (l.set i v).getD j 0 = if i = j ∧ i < l.length then v else l.getD j 0 := by
  rw [List.getD_eq_getElem?_getD, List.getD_eq_getElem?_getD, List.getElem?_set]
  by_cases hij : i = j
  · subst hij
    by_cases hil : i < l.length
    · simp [hil]
    · simp [hil, List.getElem?_eq_none (Nat.le_of_not_lt hil)]
  · simp [hij]

theorem xor_lt_256 {x y : Nat} (hx : x < 256) (hy : y < 256) : x ^^^ y < 256 := by
  have h := @Nat.xor_lt_two_pow x y 8
    (Nat.lt_of_lt_of_le hx (by norm_num)) (Nat.lt_of_lt_of_le hy (by norm_num))
  exact Nat.lt_of_lt_of_le h (by norm_num)

theorem fold_length (idxs : List Nat) (d : List Nat) (a : List Nat) :
    (idxs.foldl (fun acc i => acc.set (i % 20) (acc.getD (i % 20) 0 ^^^ d.getD i 0)) a).length
      = a.length := by
  induction idxs generalizing a with
  | nil => rfl
  | cons i rest ih => rw [List.foldl_cons, ih, List.length_set]

theorem fold_parallel (idxs : List Nat) (d : List Nat) :
    ∀ (a b : List Nat), 20 ≤ a.length → 20 ≤ b.length →
    (∀ m, m < 20 → a.getD m 0 = b.getD m 0) →
    ∀ m, m < 20 →
    (idxs.foldl (fun acc i => acc.set (i % 20) (acc.getD (i % 20) 0 ^^^ d.getD i 0)) a).getD m 0
    = (idxs.foldl (fun acc i => acc.set (i % 20) (acc.getD (i % 20) 0 ^^^ d.getD i 0)) b).getD m 0 := by
  induction idxs with
  | nil => intro a b _ _ hpt m hm; exact hpt m hm
  | cons i rest ih =>
    intro a b ha hb hpt m hm
    rw [List.foldl_cons, List.foldl_cons]
    refine ih _ _ (by rw [List.length_set]; exact ha) (by rw [List.length_set]; exact hb) ?_ m hm
    intro m' hm'
    have hmod : i % 20 < 20 := Nat.mod_lt _ (by norm_num)
    have ca : i % 20 < a.length := Nat.lt_of_lt_of_le hmod ha
    have cb : i % 20 < b.length := Nat.lt_of_lt_of_le hmod hb
    rw [getD_set, getD_set]
    simp only [ca, cb, and_true]
    have hpt' : a[m']?.getD 0 = b[m']?.getD 0 := by
      have := hpt _ hm'
      rwa [List.getD_eq_getElem?_getD, List.getD_eq_getElem?_getD] at this
    by_cases he : i % 20 = m'
    · simp [he, hpt _ hmod, hpt']
    · simp [he, hpt']

theorem fold_getD_lt (idxs : List Nat) (d : List Nat) (hd : ∀ i, d.getD i 0 < 256) :
    ∀ (a : List Nat), (∀ m, a.getD m 0 < 256) →
    ∀ m, (idxs.foldl (fun acc i => acc.set (i % 20) (acc.getD (i % 20) 0 ^^^ d.getD i 0)) a).getD m 0 < 256 := by
  induction idxs with
  | nil => intro a ha m; exact ha m
  | cons i rest ih =>
    intro a ha m
    rw [List.foldl_cons]
    refine ih _ ?_ m
    intro m'
    rw [getD_set]
    by_cases he : i % 20 = m' ∧ i % 20 < a.length
    · rw [if_pos he]
      exact xor_lt_256 (ha _) (hd _)
    · rw [if_neg he]; exact ha _

theorem replicate_getD_zero (n m : Nat) : (List.replicate n (0 : Nat)).getD m 0 = 0 := by
  rw [List.getD_eq_getElem?_getD]
  rcases Nat.lt_or_ge m n with h | h
  · simp [List.getElem?_replicate, h]
  · rw [List.getElem?_eq_none (by simpa using h)]; rfl

theorem wordsToBytes_getD_lt (ws : List Nat) : ∀ i, (wordsToBytes ws).getD i 0 < 256 := by
  induction ws with
  | nil => intro i; simp [wordsToBytes, List.getD]
  | cons w ws ih =>
    intro i
    match i with
    | 0 => simp [wordsToBytes]; omega
    | 1 => simp [wordsToBytes, List.getD_cons_succ]; omega
    | 2 => simp [wordsToBytes, List.getD_cons_succ]; omega
    | 3 => simp [wordsToBytes, List.getD_cons_succ]; omega
    | m + 4 =>
      show (wordsToBytes (w :: ws)).getD (m + 4) 0 < 256
      simp only [wordsToBytes, List.getD_cons_succ]
      exact ih m

theorem sha256_getD_lt (msg : List Nat) (i : Nat) : (sha256 msg).getD i 0 < 256 :=
  wordsToBytes_getD_lt _ i

theorem specCompress_length (d : List Nat) : (specCompress d).length = 20 := by
  rw [specCompress, fold_length, List.length_replicate]


theorem printBase32_mk (alg : Algorithm) (hs : Nat) (hl : List Nat) :
    Hash.printBase32 ⟨alg, hs, hl⟩ =
    String.mk (((List.range (base32Len hs)).reverse).map (fun n =>
      nix32Char (((hl.getD (n * 5 / 8) 0 >>> (n * 5 % 8)) |||
        (if hs - 1 ≤ n * 5 / 8 then 0
         else hl.getD (n * 5 / 8 + 1) 0 <<< (8 - n * 5 % 8))) &&& 31))) := rfl

theorem printBase32_eq_specBase32_gen (l big : List Nat) (alg : Algorithm)
    (hlen : l.length = 20)
    (hb : ∀ i, l.getD i 0 < 256)
    (hgd : ∀ m, m < 20 → big.getD m 0 = l.getD m 0) :
    Hash.printBase32 ⟨alg, 20, big⟩ = specBase32 l := by
  rw [printBase32_mk, specBase32, hlen,
    show base32Len 20 = 32 from by norm_num [base32Len],
    show (20 * 8 - 1) / 5 + 1 = 32 from by norm_num,
    List.map_reverse]
  congr 1
  congr 1
  apply List.map_congr_left
  intro n hn
  have hn32 : n < 32 := List.mem_range.mp hn
  have e1 : big.getD (n * 5 / 8) 0 = l.getD (n * 5 / 8) 0 := hgd _ (by omega)
  have e2 : (if 20 - 1 ≤ n * 5 / 8 then 0
        else big.getD (n * 5 / 8 + 1) 0 <<< (8 - n * 5 % 8))
      = (if 20 - 1 ≤ n * 5 / 8 then 0
        else l.getD (n * 5 / 8 + 1) 0 <<< (8 - n * 5 % 8)) := by
    by_cases hc : 20 - 1 ≤ n * 5 / 8
    · rw [if_pos hc, if_pos hc]
    · rw [if_neg hc, if_neg hc, hgd _ (by omega)]
  rw [e1, e2]
  exact congrArg nix32Char (codeChar_eq_specDigit l hlen hb n hn32)

theorem printBase32_eq_specBase32 (dg : List Nat) (hd : ∀ i, dg.getD i 0 < 256)
    (alg : Algorithm) :
    Hash.printBase32 ⟨alg, 20, xorFold dg 32⟩ = specBase32 (specCompress dg) := by
  refine printBase32_eq_specBase32_gen (specCompress dg) (xorFold dg 32) alg
    (specCompress_length dg) ?_ ?_
  · intro i
    rw [specCompress]
    exact fold_getD_lt (List.range 32) dg hd (List.replicate 20 0)
      (fun m => by rw [replicate_getD_zero]; norm_num) i
  · intro m hm
    rw [xorFold, specCompress]
    exact fold_parallel (List.range 32) dg (List.replicate 64 0) (List.replicate 20 0)
      (by norm_num [List.length_replicate]) (by norm_num [List.length_replicate])
      (fun m2 _ => by rw [replicate_getD_zero, replicate_getD_zero]) m hm

/-! ## Claim theorems -/

/-- C3: Forcing a thunk already in the Resolving state returns the
infinite-recursion error rather than looping or panicking, and the
diagnostic carries three labels: the defining span (Error kind), the
current caller's span ("Called from here", Help kind), and the original
first-use span ("Already used here", Help kind); in particular both
`let x = x; in x` and `let x = y; y = x; in x` raise this error when
forced. -/
theorem claim_C3 :
    (∀ (fuel : Nat) (a : Nat) (defBt useBt bt : Backtrace) (h : Heap),
      h.vars a = some (.resolving defBt useBt) →
      LazyNixValue.resolve (fuel + 1) a bt h =
        (.err
          { message := "Infinite recursion detected. Tried to get a value that is resolving"
            labels :=
              [⟨defBt.span, .empty, .error⟩,
               ⟨bt.span, .custom "Called from here", .help⟩,
               ⟨useBt.span, .custom "Already used here", .help⟩]
            backtrace := defBt.parent }, h))
    ∧ run 40 progSelfRec =
        .err
          { message := "Infinite recursion detected. Tried to get a value that is resolving"
            labels :=
              [⟨.ident "x", .empty, .error⟩,
               ⟨.ident "x", .custom "Called from here", .help⟩,
               ⟨.ident "x", .custom "Already used here", .help⟩]
            backtrace := some (.mk (.ident "x")
              (some (.mk progSelfRec (some (.mk progSelfRec none .file)) .letIn)) .none) }
    ∧ run 40 progMutualRec =
        .err
          { message := "Infinite recursion detected. Tried to get a value that is resolving"
            labels :=
              [⟨.ident "y", .empty, .error⟩,
               ⟨.ident "x", .custom "Called from here", .help⟩,
               ⟨.ident "x", .custom "Already used here", .help⟩]
            backtrace := some (.mk (.ident "y")
              (some (.mk progMutualRec (some (.mk progMutualRec none .file)) .letIn)) .none) } := by
  refine ⟨fun fuel a defBt useBt bt h heq => ?_, ?_, ?_⟩
  · rw [LazyNixValue.resolve, heq]
  · simp +decide [run, runState, initState, progSelfRec, visitExpr, visitBinOp,
      LazyNixValue.resolve, NixVar.resolve, NixVar.resolveLoop, NixLambda.call, Builtin.run,
      coerceString, selectAttr, NixVar.tryEq, NixValue.tryEq, tryEqEntries,
      insertToAttrset, insertEntriesAttrs, insertEntriesLet, Scope.getVariable, Scope.newChild,
      Scope.newChildFrom, Scope.setVariable, Scope.variablesId, Heap.empty, Heap.allocVar,
      Heap.allocVal, Heap.writeVar, Heap.writeVal, lookupA, insertSorted, extendA,
      NixValue.asBool, NixValue.asInt, NixValue.asString, NixValue.asLambda, NixValue.asAttrSet,
      NixValue.isAttrSet, Backtrace.visit, Backtrace.child, Backtrace.changeSpan, Backtrace.span,
      Backtrace.parent, Backtrace.toError, NixError.todo, NixError.fromMessage, Outcome.castFail]
  · simp +decide [run, runState, initState, progMutualRec, visitExpr, visitBinOp,
      LazyNixValue.resolve, NixVar.resolve, NixVar.resolveLoop, NixLambda.call, Builtin.run,
      coerceString, selectAttr, NixVar.tryEq, NixValue.tryEq, tryEqEntries,
      insertToAttrset, insertEntriesAttrs, insertEntriesLet, Scope.getVariable, Scope.newChild,
      Scope.newChildFrom, Scope.setVariable, Scope.variablesId, Heap.empty, Heap.allocVar,
      Heap.allocVal, Heap.writeVar, Heap.writeVal, lookupA, insertSorted, extendA,
      NixValue.asBool, NixValue.asInt, NixValue.asString, NixValue.asLambda, NixValue.asAttrSet,
      NixValue.isAttrSet, Backtrace.visit, Backtrace.child, Backtrace.changeSpan, Backtrace.span,
      Backtrace.parent, Backtrace.toError, NixError.todo, NixError.fromMessage, Outcome.castFail]

theorem claim_C3_witness :
    LazyNixValue.resolve 6 0 c10Bt (Heap.empty.allocVar (.resolving c10Bt c10Bt)).2 =
      (.err
        { message := "Infinite recursion detected. Tried to get a value that is resolving"
          labels :=
            [⟨.ident "zz", .empty, .error⟩,
             ⟨.ident "zz", .custom "Called from here", .help⟩,
             ⟨.ident "zz", .custom "Already used here", .help⟩]
          backtrace := none }, (Heap.empty.allocVar (.resolving c10Bt c10Bt)).2) :=
  claim_C3.1 5 0 c10Bt c10Bt c10Bt (Heap.empty.allocVar (.resolving c10Bt c10Bt)).2 (by
    simp [Heap.empty, Heap.allocVar])

/-- C4: Forcing is idempotent and memoizing: a force of a thunk whose
cell is already Concrete returns the shared value with the heap
entirely untouched (no re-evaluation, no work), and after any
successful force the cell holds Concrete with the returned value, so
every later force from any of the k sharing sites takes the no-work
path and returns the same value reference. -/
theorem claim_C4 :
    (∀ (fuel : Nat) (v : Nat) (bt : Backtrace) (h : Heap) (value : Nat),
      h.vars v = some (.concrete value) →
      NixVar.resolve (fuel + 1) v bt h = (.ok value, h))
    ∧ (∀ (fuel : Nat) (v : Nat) (bt : Backtrace) (h : Heap) (value : Nat) (h' : Heap),
      NixVar.resolve fuel v bt h = (.ok value, h') →
      h'.vars v = some (.concrete value)) :=
  ⟨varResolve_concrete_noop, varResolve_ok_state⟩

theorem claim_C4_witness :
    NixVar.resolve 6 4 c10Bt initState.1 = (.ok 4, initState.1)
    ∧ initState.1.vars 4 = some (.concrete 4) :=
  ⟨claim_C4.1 5 4 c10Bt initState.1 4 (by
      simp [initState, Heap.empty, Heap.allocVar, Heap.allocVal]),
   claim_C4.2 6 4 c10Bt initState.1 4 initState.1
    (claim_C4.1 5 4 c10Bt initState.1 4 (by
      simp [initState, Heap.empty, Heap.allocVar, Heap.allocVal]))⟩

/-- C6: Short-circuit completeness: for every expression X,
`false && X` evaluates to false, `true || X` evaluates to true and
`false -> X` evaluates to true; X is never visited or forced, so the
evaluation succeeds for every X, including an X that would raise an
error when evaluated. -/
theorem claim_C6 :
    (∀ X : Expr, run 20 (.binop .and (.ident "false") X) = .ok (.bool false))
    ∧ (∀ X : Expr, run 20 (.binop .or (.ident "true") X) = .ok (.bool true))
    ∧ (∀ X : Expr, run 20 (.binop .implication (.ident "false") X) = .ok (.bool true)) := by
  refine ⟨fun X => ?_, fun X => ?_, fun X => ?_⟩ <;>
    simp +decide [run, runState, initState, visitExpr, visitBinOp,
      LazyNixValue.resolve, NixVar.resolve, NixVar.resolveLoop,
      Scope.getVariable, Scope.variablesId, Heap.empty, Heap.allocVar,
      Heap.allocVal, Heap.writeVar, Heap.writeVal, lookupA, insertSorted,
      NixValue.asBool, Backtrace.visit, Backtrace.child, Backtrace.changeSpan,
      Outcome.castFail]

theorem claim_C6_witness :
    run 20 (.binop .and (.ident "false") (.apply (.ident "throw") (.str "boom"))) =
      .ok (.bool false)
    ∧ run 20 (.binop .or (.ident "true") (.apply (.ident "throw") (.str "boom"))) =
      .ok (.bool true)
    ∧ run 20 (.binop .implication (.ident "false") (.apply (.ident "throw") (.str "boom"))) =
      .ok (.bool true) :=
  ⟨claim_C6.1 _, claim_C6.2.1 _, claim_C6.2.2 _⟩

/-- C7: the claim says the entries of a with-scope are shadowed by
enclosing lexical names, so `let x = 1; in with { x = 2; }; x` should
evaluate to 1; the code pushes the with namespace as the innermost
scope frame (visit_with uses new_child_from and get_variable searches
the own frame first), so the with entry shadows the lexical binding and
the program evaluates to 2. -/
theorem claim_C7 : run 40 progWithShadow = .ok (.int 2) := by
  simp +decide [run, runState, initState, progWithShadow, visitExpr, visitBinOp,
    LazyNixValue.resolve, NixVar.resolve, NixVar.resolveLoop, NixLambda.call, Builtin.run,
    coerceString, selectAttr, insertToAttrset, insertEntriesAttrs, insertEntriesLet,
    Scope.getVariable, Scope.newChild, Scope.newChildFrom, Scope.setVariable, Scope.variablesId,
    Heap.empty, Heap.allocVar, Heap.allocVal, Heap.writeVar, Heap.writeVal, lookupA, insertSorted,
    extendA, NixValue.asBool, NixValue.asInt, NixValue.asString, NixValue.asLambda,
    NixValue.asAttrSet, NixValue.isAttrSet, Backtrace.visit, Backtrace.child,
    Backtrace.changeSpan, Outcome.castFail]

/-- C1: the claim says tryEval catches every evaluation error of its
argument except abort, so `builtins.tryEval (throw "nope")` should give
{ success = false; value = false; }; the code's throw builtin
(src/builtins/impl.rs line 776) prints the error and calls
std::process::exit(1), so the throw never surfaces as a catchable Err
and the whole evaluation exits the process with code 1. The Err path
that tryEval does catch behaves as specified: a thunk whose forcing
raises an Err gives { success = false; value = false; }, and a
successful forcing gives { success = true; value = argument }. -/
theorem claim_C1 :
    run 40 progTryEvalThrow = .exit 1
    ∧ runDeep 40 progTryEvalErr = .ok (.attrset [("success", .bool false), ("value", .bool false)])
    ∧ runDeep 40 progTryEvalOk = .ok (.attrset [("success", .bool true), ("value", .int 42)]) := by
  refine ⟨?_, ?_, ?_⟩ <;>
    simp +decide [run, runState, runDeep, initState, progTryEvalThrow, progTryEvalErr,
      progTryEvalOk, visitExpr, visitBinOp, LazyNixValue.resolve, NixVar.resolve,
      NixVar.resolveLoop, NixLambda.call, Builtin.run, coerceString, selectAttr,
      LazyNixValue.resolveSet, NixVar.resolveSet, resolveVarList, resolveSetVarList,
      Heap.snapshot, snapshotEntries, snapshotList, insertToAttrset, insertEntriesAttrs,
      insertEntriesLet, Scope.getVariable, Scope.newChild, Scope.newChildFrom,
      Scope.setVariable, Scope.variablesId, Heap.empty, Heap.allocVar, Heap.allocVal,
      Heap.writeVar, Heap.writeVal, lookupA, insertSorted, extendA, NixValue.asBool,
      NixValue.asInt, NixValue.asString, NixValue.asLambda, NixValue.asAttrSet,
      NixValue.isAttrSet, Backtrace.visit, Backtrace.child, Backtrace.changeSpan,
      Backtrace.span, Backtrace.parent, Backtrace.toError, NixError.todo,
      NixError.fromMessage, Outcome.castFail]

set_option maxHeartbeats 1600000 in
/-- C2: for every L and R, evaluating L // R once the left operand
evaluates and resolves to an attrset yields a fresh UpdateResolve cell
storing R syntactically unevaluated, the heap being the left work plus
that one cell; for every stored lhs attrset and every rhs evaluating
and resolving to an attrset, forcing the UpdateResolve cell yields
exactly the BTreeMap-extend merge extendA (extendA [] lhsSet) rhsSet
and leaves the cell Concrete at it; for all attrsets the merge has the
union of the key sets, with the rhs entry on every key the rhs holds
and the lhs entry on the others; evaluation of the concrete
{ a = 1; } // R is frozen for every R (result var and heap the same up
to the stored R, the left entry thunk Pending); full forcing of
{ a = 1; } // { a = 2; b = 3; } yields { a = 2; b = 3; }; and
selecting .a on the update thunk resolves a to 2 while the value
thunk of b is still Pending. -/
theorem claim_C2 :
    (∀ (fuel : Nat) (scope : Scope) (bt : Backtrace) (L R : Expr)
       (h h₁ h₂ : Heap) (lhsVar lhs : Nat) (set : List (String × Nat)),
      visitExpr fuel scope (bt.visit (.binop .update L R)) L h = (.ok lhsVar, h₁) →
      NixVar.resolve fuel lhsVar (bt.visit (.binop .update L R)) h₁ = (.ok lhs, h₂) →
      h₂.vals lhs = some (.attrset set) →
      visitExpr (fuel + 2) scope bt (.binop .update L R) h
        = (.ok h₂.varCount,
           (h₂.allocVar (.updateResolve lhs R (bt.visit (.binop .update L R)) scope)).2))
    ∧ (∀ (fuel this lhs : Nat) (rhsExpr : Expr) (defBt bt : Backtrace) (scope : Scope)
         (h h₁ h₂ : Heap) (rhsVar rhsVal : Nat) (lhsSet rhsSet : List (String × Nat)),
      h.vars this = some (.updateResolve lhs rhsExpr defBt scope) →
      visitExpr fuel scope defBt rhsExpr
          ((h.writeVar this (.resolving defBt bt)).writeVar this (.concrete lhs))
        = (.ok rhsVar, h₁) →
      (∀ a b c d, h₁.vars rhsVar ≠ some (.updateResolve a b c d)) →
      NixVar.resolve fuel rhsVar defBt h₁ = (.ok rhsVal, h₂) →
      h₂.vals rhsVal = some (.attrset rhsSet) →
      h₂.vals lhs = some (.attrset lhsSet) →
      NixVar.resolve (fuel + 2) this bt h
        = (.ok h₂.valCount,
           ((h₂.allocVal (.attrset (extendA (extendA [] lhsSet) rhsSet))).2).writeVar this
             (.concrete h₂.valCount))
      ∧ (((h₂.allocVal (.attrset (extendA (extendA [] lhsSet) rhsSet))).2).writeVar this
           (.concrete h₂.valCount)).vals h₂.valCount
         = some (.attrset (extendA (extendA [] lhsSet) rhsSet)))
    ∧ (∀ (lhsSet rhsSet : List (String × Nat)),
        (lhsSet.map Prod.fst).Nodup → (rhsSet.map Prod.fst).Nodup →
        ∀ k : String,
        (∀ v, lookupA k rhsSet = some v →
          lookupA k (extendA (extendA [] lhsSet) rhsSet) = some v)
        ∧ (lookupA k rhsSet = none →
          lookupA k (extendA (extendA [] lhsSet) rhsSet) = lookupA k lhsSet)
        ∧ (lookupA k (extendA (extendA [] lhsSet) rhsSet) = none ↔
            lookupA k lhsSet = none ∧ lookupA k rhsSet = none))
    ∧ (∀ R : Expr,
      (updVisit R).1 = .ok 9
      ∧ (updVisit R).2.vars 9 = some (.updateResolve 9 R
          (.mk (.binop .update updLhs R) (some (.mk (.binop .update updLhs R) none .file)) .binOp)
          (.mk 8 (some (.mk 7 none))))
      ∧ (updVisit R).2.vars 7 = some (.pending
          (.mk (.litInt 1) (some (.mk (.binop .update updLhs R)
            (some (.mk (.binop .update updLhs R) none .file)) .binOp)) .none)
          (.mk 10 (some (.mk 8 (some (.mk 7 none))))) (.litInt 1)))
    ∧ runDeep 40 progUpdate = .ok (.attrset [("a", .int 2), ("b", .int 3)])
    ∧ (runState 40 progUpdateSelect).1 = .ok 15
    ∧ (runState 40 progUpdateSelect).2.vals 15 = some (.int 2)
    ∧ (runState 40 progUpdateSelect).2.vals 14 = some (.attrset [("a", 11), ("b", 12)])
    ∧ (runState 40 progUpdateSelect).2.vars 11 = some (.concrete 15)
    ∧ (∃ bt sc, (runState 40 progUpdateSelect).2.vars 12 =
        some (.pending bt sc (.litInt 3))) := by
  refine ⟨visitExpr_update_lazy,
    fun fuel this lhs rhsExpr defBt bt scope h h₁ h₂ rhsVar rhsVal lhsSet rhsSet
        hcell hrhs hnu hres hrset hlset =>
      ((updateResolve_force fuel this lhs rhsExpr defBt bt scope h h₁ h₂ rhsVar rhsVal
        lhsSet rhsSet hcell hrhs hnu hres hrset hlset).2),
    fun lhsSet rhsSet hndl hndr k =>
      ⟨fun v hv => extendA_right_wins lhsSet rhsSet hndr k v hv,
       fun hv => extendA_left_kept lhsSet rhsSet hndl hndr k hv,
       extendA_union lhsSet rhsSet hndl hndr k⟩,
    fun R => ⟨?_, ?_, ?_⟩, ?_, ?_, ?_, ?_, ?_,
    ⟨.mk (.litInt 3) (some (.mk progUpdate (some (.mk progUpdateSelect
        (some (.mk progUpdateSelect none .file)) .select)) .binOp)) .none,
     .mk 13 (some (.mk 8 (some (.mk 7 none)))), ?_⟩⟩ <;>
    simp +decide [run, runState, runDeep, initState, updVisit, progUpdate, progUpdateSelect,
      updLhs, updRhs, visitExpr, visitBinOp, LazyNixValue.resolve, NixVar.resolve,
      NixVar.resolveLoop, NixLambda.call, Builtin.run, coerceString, selectAttr,
      LazyNixValue.resolveSet, NixVar.resolveSet, resolveVarList, resolveSetVarList,
      Heap.snapshot, snapshotEntries, snapshotList, insertToAttrset, insertEntriesAttrs,
      insertEntriesLet, Scope.getVariable, Scope.newChild, Scope.newChildFrom,
      Scope.setVariable, Scope.variablesId, Heap.empty, Heap.allocVar, Heap.allocVal,
      Heap.writeVar, Heap.writeVal, lookupA, insertSorted, extendA, NixValue.asBool,
      NixValue.asInt, NixValue.asString, NixValue.asLambda, NixValue.asAttrSet,
      NixValue.isAttrSet, Backtrace.visit, Backtrace.child, Backtrace.changeSpan,
      Backtrace.span, Backtrace.parent, Backtrace.toError, NixError.todo,
      NixError.fromMessage, Outcome.castFail]

theorem claim_C2_witness :
    visitExpr 3 c2Scope c2Bt c2Prog Heap.empty
      = (.ok 1, (c2LhsHeap.allocVar
          (.updateResolve 0 (.litInt 5) (c2Bt.visit c2Prog) c2Scope)).2)
    ∧ NixVar.resolve 3 0 c2Bt c2ForceHeap
      = (.ok 2, ((c2RhsHeap.allocVal
          (.attrset (extendA (extendA [] [("a", 5)]) []))).2).writeVar 0 (.concrete 2))
    ∧ lookupA "a" (extendA (extendA [] [("a", 1)]) [("a", 2), ("b", 3)]) = some 2 :=
  ⟨claim_C2.1 1 c2Scope c2Bt (.attrs false []) (.litInt 5) Heap.empty c2LhsHeap c2LhsHeap 0 0 []
     (by simp +decide [visitExpr, insertEntriesAttrs, c2LhsHeap, Heap.empty, Heap.allocVal,
        Heap.allocVar, Backtrace.visit, Backtrace.child])
     (by simp +decide [NixVar.resolve, c2LhsHeap, Heap.empty, Heap.allocVal, Heap.allocVar])
     (by simp +decide [c2LhsHeap, Heap.empty, Heap.allocVal, Heap.allocVar]),
   (claim_C2.2.1 1 0 0 (.attrs false []) c2Bt c2Bt c2Scope c2ForceHeap c2RhsHeap c2RhsHeap 1 1
     [("a", 5)] []
     (by simp +decide [c2ForceHeap, Heap.empty, Heap.allocVal, Heap.allocVar])
     (by simp +decide [visitExpr, insertEntriesAttrs, c2RhsHeap, c2ForceHeap, Heap.empty,
        Heap.allocVal, Heap.allocVar, Heap.writeVar, Backtrace.visit, Backtrace.child])
     (fun a b c d => by simp +decide [c2RhsHeap, c2ForceHeap, Heap.empty, Heap.allocVal,
        Heap.allocVar, Heap.writeVar])
     (by simp +decide [NixVar.resolve, c2RhsHeap, c2ForceHeap, Heap.empty, Heap.allocVal,
        Heap.allocVar, Heap.writeVar])
     (by simp +decide [c2RhsHeap, c2ForceHeap, Heap.empty, Heap.allocVal, Heap.allocVar,
        Heap.writeVar])
     (by simp +decide [c2RhsHeap, c2ForceHeap, Heap.empty, Heap.allocVal, Heap.allocVar,
        Heap.writeVar])).1,
   (claim_C2.2.2.1 [("a", 1)] [("a", 2), ("b", 3)] (by simp) (by simp) "a").1 2 (by decide)⟩

/-- C8 counterexample: the claim says Float+Float succeeds with the
numeric sum, but evaluating `1.5 + 2.5` raises the "Cannot add" error:
visit_binop's Add arm only handles String and Int left operands and
sends every other left operand, including Float, to the
NixError::todo("Cannot add") arm. -/
theorem claim_C8_counterexample :
    run 20 (.binop .add (.litFloat (3 / 2)) (.litFloat (5 / 2))) =
      .err (NixError.todo (.binop .add (.litFloat (3 / 2)) (.litFloat (5 / 2)))
        "Cannot add" none)
    ∧ ∀ q : Rat, .ok (.float q) ≠
        run 20 (.binop .add (.litFloat (3 / 2)) (.litFloat (5 / 2))) := by
  constructor
  · simp +decide [run, runState, initState, visitExpr, visitBinOp, LazyNixValue.resolve,
      NixVar.resolve, NixVar.resolveLoop, Scope.getVariable, Scope.variablesId, Heap.empty,
      Heap.allocVar, Heap.allocVal, Heap.writeVar, Heap.writeVal, lookupA, insertSorted,
      NixValue.asBool, NixValue.asInt, NixValue.asString, NixValue.asAttrSet,
      Backtrace.visit, Backtrace.child, Backtrace.changeSpan, NixError.todo,
      Outcome.castFail]
  · intro q
    simp +decide [run, runState, initState, visitExpr, visitBinOp, LazyNixValue.resolve,
      NixVar.resolve, NixVar.resolveLoop, Scope.getVariable, Scope.variablesId, Heap.empty,
      Heap.allocVar, Heap.allocVal, Heap.writeVar, Heap.writeVal, lookupA, insertSorted,
      NixValue.asBool, NixValue.asInt, NixValue.asString, NixValue.asAttrSet,
      Backtrace.visit, Backtrace.child, Backtrace.changeSpan, NixError.todo,
      Outcome.castFail]

/-- C8 (amended): the binary + operator is defined on Int+Int (the
numeric sum) and on a String left operand (concatenation with the
right operand coerced to string); a Float left operand always raises
the "Cannot add" error (the arm is an unimplemented todo), and an Int
left operand with a non-Int right operand (such as 1 + 2.5) panics at
the Int cast. -/
theorem claim_C8 :
    (∀ a b : Int, run 20 (.binop .add (.litInt a) (.litInt b)) = .ok (.int (a + b)))
    ∧ run 20 (.binop .add (.str "ab") (.str "cd")) = .ok (.str "abcd")
    ∧ run 20 (.binop .add (.str "n=") (.litInt 7)) = .ok (.str "n=7")
    ∧ (∀ (q : Rat) (X : Expr), run 20 (.binop .add (.litFloat q) X) =
        .err (NixError.todo (.binop .add (.litFloat q) X) "Cannot add" none))
    ∧ run 20 (.binop .add (.litInt 1) (.litFloat (5 / 2))) =
        .panic "Error handling: Int cast" := by
  refine ⟨fun a b => ?_, ?_, ?_, fun q X => ?_, ?_⟩ <;>
    simp +decide [run, runState, initState, visitExpr, visitBinOp, LazyNixValue.resolve,
      NixVar.resolve, NixVar.resolveLoop, Scope.getVariable, Scope.variablesId, Heap.empty,
      Heap.allocVar, Heap.allocVal, Heap.writeVar, Heap.writeVal, lookupA, insertSorted,
      NixValue.asBool, NixValue.asInt, NixValue.asString, NixValue.asAttrSet,
      Backtrace.visit, Backtrace.child, Backtrace.changeSpan, NixError.todo,
      Outcome.castFail]

theorem claim_C8_witness :
    run 20 (.binop .add (.litInt 2) (.litInt 3)) = .ok (.int 5)
    ∧ run 20 (.binop .add (.litFloat (3 / 2)) (.litInt 4)) =
        .err (NixError.todo (.binop .add (.litFloat (3 / 2)) (.litInt 4)) "Cannot add" none) :=
  ⟨claim_C8.1 2 3, claim_C8.2.2.2.1 (3 / 2) (.litInt 4)⟩

/-- C9 counterexample: the claim says an empty NIX_BACKTRACE value
yields the disabled mode, but std::env::var returns Ok("") for a set
empty variable, so the initializer maps it to Enabled, not Disabled. -/
theorem claim_C9_counterexample :
    backtraceEnv (some "") = .enabled ∧ backtraceEnv (some "") ≠ .disabled := by
  constructor <;> simp [backtraceEnv, startsWithF]

/-- C9 (amended): NIX_BACKTRACE unset yields the disabled mode, any set
value starting with "f" yields the full mode, and any other set value,
including the empty string, yields the compact enabled mode. -/
theorem claim_C9 :
    backtraceEnv none = .disabled
    ∧ (∀ s : String, startsWithF s → backtraceEnv (some s) = .full)
    ∧ (∀ s : String, ¬ startsWithF s → backtraceEnv (some s) = .enabled) := by
  refine ⟨rfl, fun s hs => ?_, fun s hs => ?_⟩ <;> simp [backtraceEnv, hs]

theorem claim_C9_witness :
    backtraceEnv (some "full") = .full ∧ backtraceEnv (some "1") = .enabled :=
  ⟨claim_C9.2.1 "full" (by simp [startsWithF]), claim_C9.2.2 "1" (by simp [startsWithF])⟩

/-- C10 counterexample: the claim says two compared entries that are
the same shared cell are reported equal without forcing or inspecting
their contents, but LazyNixValue::try_eq resolves both sides before
comparing pointers, so comparing a shared cell whose forcing fails
returns that error instead of true. -/
theorem claim_C10_counterexample :
    (NixVar.tryEq 20 7 7 c10Bt c10FailHeap).1 =
      .err (NixError.fromMessage ⟨.ident "zz", .variableNotFound, .error⟩
        "Variable '\x1b[1;95mzz\x1b[0m' not found")
    ∧ (NixVar.tryEq 20 7 7 c10Bt c10FailHeap).1 ≠ .ok true := by
  constructor <;>
    simp +decide [NixVar.tryEq, NixValue.tryEq, tryEqEntries, c10FailHeap, c10Bt, initState,
      visitExpr, visitBinOp, LazyNixValue.resolve, NixVar.resolve, NixVar.resolveLoop,
      Scope.getVariable, Scope.variablesId, Heap.empty, Heap.allocVar, Heap.allocVal,
      Heap.writeVar, Heap.writeVal, lookupA, insertSorted, NixValue.asBool, NixValue.asInt,
      NixValue.asString, NixValue.asAttrSet, Backtrace.visit, Backtrace.child,
      Backtrace.changeSpan, NixError.fromMessage, Outcome.castFail]

/-- C10 (amended): equality of lazily-bound values resolves both cells
first and then short-circuits on pointer identity of the resolved value
cells before any structural comparison; hence comparing a successfully
forced cell with itself yields true without structural work, two
attrsets whose entries share one lambda thunk compare equal, and two
structurally identical but separately built lambdas (and the attrsets
holding them) never compare equal. -/
theorem claim_C10 :
    (∀ (fuelR fuelT : Nat) (a : Nat) (bt bt2 : Backtrace) (h : Heap) (v : Nat) (h₁ : Heap),
      NixVar.resolve fuelR a bt h = (.ok v, h₁) →
      NixVar.tryEq (fuelT + 2) a a bt2 h₁ = (.ok true, h₁))
    ∧ (NixValue.tryEq 10 1 2 c10Bt c10SharedHeap).1 = .ok true
    ∧ (NixValue.tryEq 10 2 3 c10Bt c10SepHeap).1 = .ok false
    ∧ (NixValue.tryEq 10 0 1 c10Bt c10SepHeap).1 = .ok false := by
  refine ⟨fun fuelR fuelT a bt bt2 h v h₁ hres => ?_, ?_, ?_, ?_⟩
  · have hcell := varResolve_ok_state fuelR a bt h v h₁ hres
    rw [NixVar.tryEq]
    simp only [LazyNixValue.resolve, hcell]
    simp
  all_goals
    simp +decide [NixVar.tryEq, NixValue.tryEq, tryEqEntries, c10SharedHeap, c10SepHeap,
      c10Bt, LazyNixValue.resolve, Heap.empty, Heap.allocVar, Heap.allocVal, lookupA,
      insertSorted, Outcome.castFail]

theorem claim_C10_witness :
    NixVar.tryEq 8 4 4 c10Bt initState.1 = (.ok true, initState.1) :=
  claim_C10.1 6 6 4 c10Bt c10Bt initState.1 4 initState.1
    (varResolve_concrete_noop 5 4 c10Bt initState.1 4 (by
      simp [initState, Heap.empty, Heap.allocVar, Heap.allocVal]))

/-- C5: for a derivation output named k that is fixed-output with
method nar and algorithm sha256 (hash backing read at size 32),
Derivation::path computes exactly the store path of spec section 6. -/
theorem claim_C5 (d : Derivation) (k : String) (hsh : Hash)
    (hlk : lookupOutput k d.outputs = some (.caFixed .nixArchive hsh))
    (halg : hsh.algorithm = .sha256) (hsize : hsh.hash_size = 32) :
    d.path k = some (specStorePath d.name k hsh) := by
  rw [Derivation.path]
  simp only [hlk]
  rw [if_neg (by simp)]
  rw [if_pos ⟨trivial, halg⟩]
  rw [Hash.printBase16, halg, hsize]
  simp only [specStorePath]
  rw [show ("source:" ++ Algorithm.display Algorithm.sha256 ++ ":" : String)
      = "source:sha256:" from rfl]
  rw [show (Hash.newEmpty Algorithm.sha256).algorithm = Algorithm.sha256 from rfl]
  rw [printBase32_eq_specBase32 _ (fun i => sha256_getD_lt _ i) Algorithm.sha256]

set_option maxRecDepth 100000 in
theorem claim_C5_witness :
    lookupOutput "out" testDrv.outputs
      = some (.caFixed .nixArchive testFixedHash)
    ∧ testFixedHash.algorithm = .sha256
    ∧ testFixedHash.hash_size = 32
    ∧ testDrv.path "out"
      = some "/nix/store/nyrnk08phhlwsps94irya05y6hz8r3jh-source" := by
  refine ⟨by decide, by decide, by decide, ?_⟩
  rw [claim_C5 testDrv "out" testFixedHash (by decide) (by decide) (by decide)]
  decide

end NixCompiler
